import Mathlib

/-!
Verification development for the CoreBlas tile-kernel repository.

The C sources are shallowly embedded over an abstract scalar field `K`
(instantiated at `ℚ` for concrete runs, matching the generated real `d`
precision where complex conjugation is the identity).  Column-major buffers
are modelled as total functions `ℤ → K` indexed by flat offsets, exactly as
the C code addresses them; every mutation is a functional update performed in
the same order as the source loops.
-/

set_option linter.unusedSectionVars false

namespace CoreBlas

/-- Status code `CoreBlasSuccess` returned by the validating kernels. -/
def CoreBlasSuccess : Int := 0

/-- Modelled from the spec: the status constant `CoreBlasErrorNotSupported` is
declared in a header that is not part of the reviewed sources; only its being
distinct from `CoreBlasSuccess` matters to the kernels below. -/
def CoreBlasErrorNotSupported : Int := -106

/-- The `coreblas_enum_t` constants used by the reviewed kernels. -/
inductive CoreblasEnum where
  | Upper | Lower | General | Left | Right | NoTrans | Trans | ConjTrans
  | Forward | Backward | Columnwise | Rowwise
  deriving DecidableEq

variable {K : Type} [Field K] [DecidableEq K]

/-- Sequential write loop over a strided vector of `cnt` entries starting at
flat offset `base` with stride `stride`: entry `k` (at offset
`base + stride*k`) is replaced by `f k` of its current value.  This models the
C `for` loops (and `memcpy`/`memset` calls) that walk a buffer slice. -/
def vecMap (A : ℤ → K) (base stride : ℤ) (cnt : ℕ) (f : ℕ → K → K) : ℤ → K :=
  (List.range cnt).foldl
    (fun B (k : ℕ) =>
      Function.update B (base + stride * (k : ℤ)) (f k (B (base + stride * (k : ℤ))))) A

/-- Modelled from the external BLAS interface consumed by the sources
(`cblas_zgemm`): dense matrix-matrix multiply `C := alpha*op(A)*op(B) + beta*C`
on an `m`-by-`n` result, inner dimension `kk`, all buffers column-major with
the given leading dimensions, starting at flat offset 0. -/
def gemmApply (conjK : K → K) (transa transb : CoreblasEnum) (m n kk : ℕ) (alpha : K)
    (A : ℤ → K) (lda : ℤ) (B : ℤ → K) (ldb : ℤ) (beta : K) (C : ℤ → K) (ldc : ℤ) :
    ℤ → K :=
  let a : ℕ → ℕ → K := fun i p =>
    if transa = CoreblasEnum.NoTrans then A (lda * p + i)
    else if transa = CoreblasEnum.ConjTrans then conjK (A (lda * i + p))
    else A (lda * i + p)
  let b : ℕ → ℕ → K := fun p j =>
    if transb = CoreblasEnum.NoTrans then B (ldb * j + p)
    else if transb = CoreblasEnum.ConjTrans then conjK (B (ldb * p + j))
    else B (ldb * p + j)
  let c0 : ℕ → ℕ → K := fun i j => C (ldc * j + i)
  (List.range n).foldl
    (fun Cc (j : ℕ) =>
      vecMap Cc (ldc * j) 1 m
        (fun i _ => beta * c0 i j + alpha * ∑ p ∈ Finset.range kk, a i p * b p j)) C

/-- Modelled from the external BLAS interface consumed by the sources
(`cblas_ztrmm` with `Right`/`Upper`/`NonUnit`, as `coreblas_zlarfb_gemm` calls
it): `B := alpha * B * op(T)` with `T` an `n`-by-`n` upper triangular matrix
and `B` an `m`-by-`n` matrix. -/
def trmmRightUpper (conjK : K → K) (trans : CoreblasEnum) (m n : ℕ) (alpha : K)
    (T : ℤ → K) (ldt : ℤ) (B : ℤ → K) (ldb : ℤ) : ℤ → K :=
  let t : ℕ → ℕ → K := fun r c => if r ≤ c then T (ldt * c + r) else 0
  let opT : ℕ → ℕ → K := fun p j =>
    if trans = CoreblasEnum.NoTrans then t p j
    else if trans = CoreblasEnum.ConjTrans then conjK (t j p)
    else t j p
  let b0 : ℕ → ℕ → K := fun i p => B (ldb * p + i)
  (List.range n).foldl
    (fun Bc (j : ℕ) =>
      vecMap Bc (ldb * j) 1 m
        (fun i _ => alpha * ∑ p ∈ Finset.range n, b0 i p * opT p j)) B

/-- Mutable buffers of `coreblas_zlarfb_gemm`: the matrix `C` and the
workspace `WORK`. -/
structure LState (K : Type) where
  C : ℤ → K
  WORK : ℤ → K

/-- `coreblas_zlarfb_gemm` from `src/unnamed/part_003`: applies a block
reflector (or its adjoint) to `C`, supporting only the
Columnwise/Forward cases; other storage/direction combinations return
`CoreBlasErrorNotSupported`.  The read-only buffers `V` and `T` are passed as
plain functions; `Kk` is the argument the C source calls `K`. -/
def coreblas_zlarfb_gemm (conjK : K → K) (side trans direct storev : CoreblasEnum)
    (M N Kk : ℤ) (V : ℤ → K) (LDV : ℤ) (T : ℤ → K) (LDT LDC LDWORK : ℤ)
    (S : LState K) : Int × LState K :=
  -- Quick return
  if M = 0 ∨ N = 0 ∨ Kk = 0 then (CoreBlasSuccess, S)
  else
    -- For Left case, switch the trans. noswitch for right case
    let trans1 :=
      if side = CoreblasEnum.Left then
        (if trans = CoreblasEnum.NoTrans then CoreblasEnum.ConjTrans
         else CoreblasEnum.NoTrans)
      else trans
    if storev = CoreblasEnum.Columnwise then
      if direct = CoreblasEnum.Forward then
        if side = CoreblasEnum.Left then
          -- W := C' * V ; W := W * T' or W * T ; C := C - V * W'
          let W1 := gemmApply conjK CoreblasEnum.ConjTrans CoreblasEnum.NoTrans
            N.toNat Kk.toNat M.toNat 1 S.C LDC V LDV 0 S.WORK LDWORK
          let W2 := trmmRightUpper conjK trans1 N.toNat Kk.toNat 1 T LDT W1 LDWORK
          let C1 := gemmApply conjK CoreblasEnum.NoTrans CoreblasEnum.ConjTrans
            M.toNat N.toNat Kk.toNat (-1) V LDV W2 LDWORK 1 S.C LDC
          (CoreBlasSuccess, ⟨C1, W2⟩)
        else
          -- W := C * V ; W := W * T or W * T' ; C := C - W * V'
          let W1 := gemmApply conjK CoreblasEnum.NoTrans CoreblasEnum.NoTrans
            M.toNat Kk.toNat N.toNat 1 S.C LDC V LDV 0 S.WORK LDWORK
          let W2 := trmmRightUpper conjK trans1 M.toNat Kk.toNat 1 T LDT W1 LDWORK
          let C1 := gemmApply conjK CoreblasEnum.NoTrans CoreblasEnum.ConjTrans
            M.toNat N.toNat Kk.toNat (-1) V LDV W2 LDWORK 1 S.C LDC
          (CoreBlasSuccess, ⟨C1, W2⟩)
      else
        -- Columnwise / Backward / Left or Right
        (CoreBlasErrorNotSupported, S)
    else
      if direct = CoreblasEnum.Forward then
        -- Rowwise / Forward / Left or Right
        (CoreBlasErrorNotSupported, S)
      else
        -- Rowwise / Backward / Left or Right
        (CoreBlasErrorNotSupported, S)

/-- Mutable buffers of `coreblas_ztsmqr`: the tiles `A1`, `A2` and the
workspace. -/
structure TSState (K : Type) where
  A1 : ℤ → K
  A2 : ℤ → K
  work : ℤ → K

/-- `coreblas_ztsmqr` from `src/unnamed/part_000`.  The inner kernel
`coreblas_zparfb` is not part of the reviewed sources, so it is taken as an
arbitrary state transformer `parfb` receiving exactly the varying arguments
the call site passes: `side`, `trans`, `mi`, `ni`, `m2`, `n2`, `kb` and the
flat offsets into `A1`, `V` and `T`.  Null pointer arguments are modelled by
boolean flags. -/
def coreblas_ztsmqr
    (parfb : CoreblasEnum → CoreblasEnum → ℤ → ℤ → ℤ → ℤ → ℤ → ℤ → ℤ → ℤ →
      TSState K → TSState K)
    (side trans : CoreblasEnum) (m1 n1 m2 n2 k ib : ℤ)
    (a1null : Bool) (lda1 : ℤ) (a2null : Bool) (lda2 : ℤ)
    (vnull : Bool) (ldv : ℤ) (tnull : Bool) (ldt : ℤ)
    (worknull : Bool) (ldwork : ℤ) (S : TSState K) : Int × TSState K :=
  if ¬(side = CoreblasEnum.Left ∨ side = CoreblasEnum.Right) then (-1, S)
  else if ¬(trans = CoreblasEnum.NoTrans ∨ trans = CoreblasEnum.ConjTrans) then (-2, S)
  else if m1 < 0 then (-3, S)
  else if n1 < 0 then (-4, S)
  else if m2 < 0 ∨ (m2 ≠ m1 ∧ side = CoreblasEnum.Right) then (-5, S)
  else if n2 < 0 ∨ (n2 ≠ n1 ∧ side = CoreblasEnum.Left) then (-6, S)
  else if k < 0 ∨ (side = CoreblasEnum.Left ∧ k > m1) ∨
          (side = CoreblasEnum.Right ∧ k > n1) then (-7, S)
  else if ib < 0 then (-8, S)
  else if a1null then (-9, S)
  else if lda1 < max 1 m1 then (-10, S)
  else if a2null then (-11, S)
  else if lda2 < max 1 m2 then (-12, S)
  else if vnull then (-13, S)
  else if ldv < max 1 (if side = CoreblasEnum.Left then m2 else n2) then (-14, S)
  else if tnull then (-15, S)
  else if ldt < max 1 ib then (-16, S)
  else if worknull then (-17, S)
  else if ldwork < max 1 (if side = CoreblasEnum.Left then ib else m1) then (-18, S)
  -- quick return
  else if m1 = 0 ∨ n1 = 0 ∨ m2 = 0 ∨ n2 = 0 ∨ k = 0 ∨ ib = 0 then
    (CoreBlasSuccess, S)
  else
    let fwd := (side = CoreblasEnum.Left ∧ trans ≠ CoreblasEnum.NoTrans) ∨
               (side = CoreblasEnum.Right ∧ trans = CoreblasEnum.NoTrans)
    let i1 : ℤ := if fwd then 0 else ((k - 1) / ib) * ib
    let i3 : ℤ := if fwd then ib else -ib
    -- the C loop for (i = i1; i > -1 && i < k; i += i3) runs ceil(k/ib) times
    let cnt : ℕ := ((k + ib - 1) / ib).toNat
    (CoreBlasSuccess,
      (List.range cnt).foldl
        (fun T0 (j : ℕ) =>
          let i := i1 + i3 * j
          let kb := min ib (k - i)
          let ic : ℤ := if side = CoreblasEnum.Left then i else 0
          let jc : ℤ := if side = CoreblasEnum.Left then 0 else i
          let mi := if side = CoreblasEnum.Left then m1 - i else m1
          let ni := if side = CoreblasEnum.Left then n1 else n1 - i
          parfb side trans mi ni m2 n2 kb (lda1 * jc + ic) (ldv * i) (ldt * i) T0)
        S)

/-- `coreblas_ztradd` from `src/core_blas/core_ztradd.c`: trapezoidal add
`B := alpha*op(A) + beta*B`.  The output buffer `B` is the state; null
pointers are modelled by flags. -/
def coreblas_ztradd (conjK : K → K) (uplo transa : CoreblasEnum) (m n : ℤ)
    (alpha : K) (anull : Bool) (A : ℤ → K) (lda : ℤ)
    (beta : K) (bnull : Bool) (B : ℤ → K) (ldb : ℤ) : Int × (ℤ → K) :=
  if ¬(uplo = CoreblasEnum.Upper ∨ uplo = CoreblasEnum.Lower) then (-1, B)
  else if ¬(transa = CoreblasEnum.NoTrans ∨ transa = CoreblasEnum.Trans ∨
            transa = CoreblasEnum.ConjTrans) then (-2, B)
  else if m < 0 then (-3, B)
  else if n < 0 then (-4, B)
  else if anull then (-6, B)
  else if (transa = CoreblasEnum.NoTrans ∧ lda < max 1 m ∧ 0 < m) ∨
          (transa ≠ CoreblasEnum.NoTrans ∧ lda < max 1 n ∧ 0 < n) then (-7, B)
  else if bnull then (-9, B)
  else if ldb < max 1 m ∧ 0 < m then (-10, B)
  -- quick return
  else if m = 0 ∨ n = 0 ∨ (alpha = 0 ∧ beta = 1) then (CoreBlasSuccess, B)
  else if uplo = CoreblasEnum.Lower then
    (CoreBlasSuccess,
      (List.range n.toNat).foldl
        (fun Bc (j : ℕ) =>
          vecMap Bc (ldb * j + j) 1 (m - j).toNat (fun t b =>
            if transa = CoreblasEnum.ConjTrans then
              beta * b + alpha * conjK (A (lda * ((j : ℤ) + t) + j))
            else if transa = CoreblasEnum.Trans then
              beta * b + alpha * A (lda * ((j : ℤ) + t) + j)
            else
              beta * b + alpha * A (lda * j + ((j : ℤ) + t)))) B)
  else
    (CoreBlasSuccess,
      (List.range n.toNat).foldl
        (fun Bc (j : ℕ) =>
          vecMap Bc (ldb * j) 1 (min ((j : ℤ) + 1) m).toNat (fun i b =>
            if transa = CoreblasEnum.ConjTrans then
              beta * b + alpha * conjK (A (lda * i + j))
            else if transa = CoreblasEnum.Trans then
              beta * b + alpha * A (lda * i + j)
            else
              beta * b + alpha * A (lda * j + i))) B)

/-- Modelled from the external BLAS interface (`cblas_zgemv`):
`y := alpha*op(A)*x + beta*y` for an `m`-by-`n` matrix at flat offset
`abase`. -/
def gemvApply (conjK : K → K) (trans : CoreblasEnum) (m n : ℕ) (alpha : K)
    (A : ℤ → K) (abase lda : ℤ) (X : ℤ → K) (xbase incx : ℤ) (beta : K)
    (Y : ℤ → K) (ybase incy : ℤ) : ℤ → K :=
  if trans = CoreblasEnum.NoTrans then
    vecMap Y ybase incy m (fun i y =>
      beta * y + alpha * ∑ j ∈ Finset.range n,
        A (abase + lda * j + i) * X (xbase + incx * j))
  else if trans = CoreblasEnum.Trans then
    vecMap Y ybase incy n (fun j y =>
      beta * y + alpha * ∑ i ∈ Finset.range m,
        A (abase + lda * j + i) * X (xbase + incx * i))
  else
    vecMap Y ybase incy n (fun j y =>
      beta * y + alpha * ∑ i ∈ Finset.range m,
        conjK (A (abase + lda * j + i)) * X (xbase + incx * i))

/-- Modelled from the external BLAS interface (`cblas_ztrmv` with `NonUnit`
diagonal): `x := op(T)*x` for an `l`-by-`l` triangular matrix stored at flat
offset `abase`. -/
def trmvApply (conjK : K → K) (uplo trans : CoreblasEnum) (l : ℕ)
    (A : ℤ → K) (abase lda : ℤ) (x : ℤ → K) (xbase incx : ℤ) : ℤ → K :=
  let x0 : ℕ → K := fun j => x (xbase + incx * j)
  let ent : ℕ → ℕ → K := fun r c =>
    if (uplo = CoreblasEnum.Upper ∧ r ≤ c) ∨ (uplo ≠ CoreblasEnum.Upper ∧ c ≤ r)
    then A (abase + lda * c + r) else 0
  vecMap x xbase incx l (fun i _ =>
    if trans = CoreblasEnum.NoTrans then ∑ j ∈ Finset.range l, ent i j * x0 j
    else if trans = CoreblasEnum.Trans then ∑ j ∈ Finset.range l, ent j i * x0 j
    else ∑ j ∈ Finset.range l, conjK (ent j i) * x0 j)

/-- Modelled from the external BLAS interface (`cblas_zcopy`). -/
def copyApply (cnt : ℕ) (X : ℤ → K) (xbase incx : ℤ) (Y : ℤ → K)
    (ybase incy : ℤ) : ℤ → K :=
  vecMap Y ybase incy cnt (fun k _ => X (xbase + incx * k))

/-- Modelled from the external BLAS interface (`cblas_zaxpy`). -/
def axpyApply (cnt : ℕ) (alpha : K) (X : ℤ → K) (xbase incx : ℤ) (Y : ℤ → K)
    (ybase incy : ℤ) : ℤ → K :=
  vecMap Y ybase incy cnt (fun k y => y + alpha * X (xbase + incx * k))

/-- Modelled from the external BLAS interface (`cblas_zscal`). -/
def scalApply (cnt : ℕ) (alpha : K) (X : ℤ → K) (xbase incx : ℤ) : ℤ → K :=
  vecMap X xbase incx cnt (fun _ v => alpha * v)

/-- Mutable buffers of `coreblas_zpemv`: the output vector `Y` and the
workspace. -/
structure PState (K : Type) where
  Y : ℤ → K
  work : ℤ → K

/-- `coreblas_zpemv` from `src/core_blas/core_zpemv.c`: pentagonal
matrix-vector product `y := alpha*op(A)*x + beta*y`. -/
def coreblas_zpemv (conjK : K → K) (trans storev : CoreblasEnum) (m n l : ℤ)
    (alpha : K) (A : ℤ → K) (lda : ℤ) (X : ℤ → K) (incx : ℤ) (beta : K)
    (incy : ℤ) (S : PState K) : Int × PState K :=
  if ¬(trans = CoreblasEnum.NoTrans ∨ trans = CoreblasEnum.Trans ∨
       trans = CoreblasEnum.ConjTrans) then (-1, S)
  else if ¬(storev = CoreblasEnum.Columnwise ∨ storev = CoreblasEnum.Rowwise) then
    (-2, S)
  else if ¬((storev = CoreblasEnum.Columnwise ∧ trans ≠ CoreblasEnum.NoTrans) ∨
            (storev = CoreblasEnum.Rowwise ∧ trans = CoreblasEnum.NoTrans)) then
    (-2, S)
  else if m < 0 then (-3, S)
  else if n < 0 then (-4, S)
  else if l > min m n then (-5, S)
  else if lda < max 1 m then (-8, S)
  else if incx < 1 then (-10, S)
  else if incy < 1 then (-13, S)
  -- quick return
  else if m = 0 ∨ n = 0 then (CoreBlasSuccess, S)
  else if alpha = 0 ∧ beta = 0 then (CoreBlasSuccess, S)
  else
    -- If l < 2, there is no triangular part
    let l1 : ℤ := if l = 1 then 0 else l
    if storev = CoreblasEnum.Columnwise then
      if trans = CoreblasEnum.NoTrans then (-1, S)
      else
        let S1 :=
          if 0 < l1 then
            -- w = A_2^H * x_2
            let w1 := copyApply l1.toNat X (incx * (m - l1)) incx S.work 0 1
            let w2 := trmvApply conjK CoreblasEnum.Upper trans l1.toNat
              A (m - l1) lda w1 0 1
            if l1 < m then
              let y1 := gemvApply conjK trans (m - l1).toNat l1.toNat alpha
                A 0 lda X 0 incx beta S.Y 0 incy
              PState.mk (axpyApply l1.toNat alpha w2 0 1 y1 0 incy) w2
            else if beta = 0 then
              let w3 := scalApply l1.toNat alpha w2 0 1
              PState.mk (copyApply l1.toNat w3 0 1 S.Y 0 incy) w3
            else
              let y1 := scalApply l1.toNat beta S.Y 0 incy
              PState.mk (axpyApply l1.toNat alpha w2 0 1 y1 0 incy) w2
          else S
        if l1 < n then
          (CoreBlasSuccess,
            PState.mk
              (gemvApply conjK trans m.toNat (n - l1).toNat alpha A (lda * l1)
                lda X 0 incx beta S1.Y (incy * l1) incy) S1.work)
        else (CoreBlasSuccess, S1)
    else
      if trans = CoreblasEnum.NoTrans then
        let S1 :=
          if 0 < l1 then
            -- w = A_2 * x_2
            let w1 := copyApply l1.toNat X (incx * (n - l1)) incx S.work 0 1
            let w2 := trmvApply conjK CoreblasEnum.Lower CoreblasEnum.NoTrans
              l1.toNat A (lda * (n - l1)) lda w1 0 1
            if l1 < n then
              let y1 := gemvApply conjK CoreblasEnum.NoTrans l1.toNat
                (n - l1).toNat alpha A 0 lda X 0 incx beta S.Y 0 incy
              PState.mk (axpyApply l1.toNat alpha w2 0 1 y1 0 incy) w2
            else if beta = 0 then
              let w3 := scalApply l1.toNat alpha w2 0 1
              PState.mk (copyApply l1.toNat w3 0 1 S.Y 0 incy) w3
            else
              let y1 := scalApply l1.toNat beta S.Y 0 incy
              PState.mk (axpyApply l1.toNat alpha w2 0 1 y1 0 incy) w2
          else S
        if l1 < m then
          (CoreBlasSuccess,
            PState.mk
              (gemvApply conjK CoreblasEnum.NoTrans (m - l1).toNat n.toNat alpha
                A l1 lda X 0 incx beta S1.Y (incy * l1) incy) S1.work)
        else (CoreBlasSuccess, S1)
      else (-1, S)

/-- Position-indexed invalidity of the arguments of `coreblas_ztsmqr`:
`ztsmqrParamInvalid ... i` holds exactly when the `i`-th parameter of the C
argument list fails the check the source performs on it (positions 1-18;
conditions transcribed from `src/unnamed/part_000` lines 128-201). -/
def ztsmqrParamInvalid (side trans : CoreblasEnum) (m1 n1 m2 n2 k ib : ℤ)
    (a1null : Bool) (lda1 : ℤ) (a2null : Bool) (lda2 : ℤ) (vnull : Bool)
    (ldv : ℤ) (tnull : Bool) (ldt : ℤ) (worknull : Bool) (ldwork : ℤ)
    (i : ℤ) : Prop :=
  (i = 1 ∧ ¬(side = CoreblasEnum.Left ∨ side = CoreblasEnum.Right)) ∨
  (i = 2 ∧ ¬(trans = CoreblasEnum.NoTrans ∨ trans = CoreblasEnum.ConjTrans)) ∨
  (i = 3 ∧ m1 < 0) ∨
  (i = 4 ∧ n1 < 0) ∨
  (i = 5 ∧ (m2 < 0 ∨ (m2 ≠ m1 ∧ side = CoreblasEnum.Right))) ∨
  (i = 6 ∧ (n2 < 0 ∨ (n2 ≠ n1 ∧ side = CoreblasEnum.Left))) ∨
  (i = 7 ∧ (k < 0 ∨ (side = CoreblasEnum.Left ∧ k > m1) ∨
    (side = CoreblasEnum.Right ∧ k > n1))) ∨
  (i = 8 ∧ ib < 0) ∨
  (i = 9 ∧ a1null = true) ∨
  (i = 10 ∧ lda1 < max 1 m1) ∨
  (i = 11 ∧ a2null = true) ∨
  (i = 12 ∧ lda2 < max 1 m2) ∨
  (i = 13 ∧ vnull = true) ∨
  (i = 14 ∧ ldv < max 1 (if side = CoreblasEnum.Left then m2 else n2)) ∨
  (i = 15 ∧ tnull = true) ∨
  (i = 16 ∧ ldt < max 1 ib) ∨
  (i = 17 ∧ worknull = true) ∨
  (i = 18 ∧ ldwork < max 1 (if side = CoreblasEnum.Left then ib else m1))

/-- Position-indexed invalidity of the arguments of `coreblas_ztradd`
(positions in the C list `uplo, transa, m, n, alpha, A, lda, beta, B, ldb`;
`alpha` and `beta` are never checked, conditions transcribed from
`src/core_blas/core_ztradd.c` lines 86-127). -/
def ztraddParamInvalid (uplo transa : CoreblasEnum) (m n : ℤ) (anull : Bool)
    (lda : ℤ) (bnull : Bool) (ldb : ℤ) (i : ℤ) : Prop :=
  (i = 1 ∧ ¬(uplo = CoreblasEnum.Upper ∨ uplo = CoreblasEnum.Lower)) ∨
  (i = 2 ∧ ¬(transa = CoreblasEnum.NoTrans ∨ transa = CoreblasEnum.Trans ∨
    transa = CoreblasEnum.ConjTrans)) ∨
  (i = 3 ∧ m < 0) ∨
  (i = 4 ∧ n < 0) ∨
  (i = 6 ∧ anull = true) ∨
  (i = 7 ∧ ((transa = CoreblasEnum.NoTrans ∧ lda < max 1 m ∧ 0 < m) ∨
    (transa ≠ CoreblasEnum.NoTrans ∧ lda < max 1 n ∧ 0 < n))) ∨
  (i = 9 ∧ bnull = true) ∨
  (i = 10 ∧ (ldb < max 1 m ∧ 0 < m))

/-- Position-indexed invalidity of the arguments of `coreblas_zpemv`
(positions in the C list `trans, storev, m, n, l, alpha, A, lda, X, incx,
beta, Y, incy`; both the enum-range check and the unsupported-combination
check blame position 2, conditions transcribed from
`src/core_blas/core_zpemv.c` lines 121-160). -/
def zpemvParamInvalid (trans storev : CoreblasEnum) (m n l lda incx incy : ℤ)
    (i : ℤ) : Prop :=
  (i = 1 ∧ ¬(trans = CoreblasEnum.NoTrans ∨ trans = CoreblasEnum.Trans ∨
    trans = CoreblasEnum.ConjTrans)) ∨
  (i = 2 ∧ (¬(storev = CoreblasEnum.Columnwise ∨ storev = CoreblasEnum.Rowwise) ∨
    ¬((storev = CoreblasEnum.Columnwise ∧ trans ≠ CoreblasEnum.NoTrans) ∨
      (storev = CoreblasEnum.Rowwise ∧ trans = CoreblasEnum.NoTrans)))) ∨
  (i = 3 ∧ m < 0) ∨
  (i = 4 ∧ n < 0) ∨
  (i = 5 ∧ l > min m n) ∨
  (i = 8 ∧ lda < max 1 m) ∨
  (i = 10 ∧ incx < 1) ∨
  (i = 13 ∧ incy < 1)

/-- External scalar primitives consumed by the bulge-chasing kernels:
complex conjugation (identity in the real precisions), the LAPACK reflector
generator `larfg` (given the length, the pivot and the `len-1` trailing
entries, returning the new pivot, the scaled tail and the scalar factor), and
the vectors-retained position function `findVTpos` (declared in `bulge.h`,
which is not part of the reviewed sources; it returns `(vpos, taupos)`). -/
structure Prims (K : Type) where
  conj : K → K
  larfg : ℕ → K → List K → K × List K × K
  findVTpos : ℤ → ℤ → ℤ → ℤ → ℤ → ℤ × ℤ

/-- Band-storage addressing macro `AL(m_, n_) = A + nb + lda*(n_) + ((m_)-(n_))`
from the bulge-chasing kernels (flat offset form). -/
def ALi (nb lda m n : ℤ) : ℤ := nb + lda * n + (m - n)

/-- Band-storage addressing macro
`AU(m_, n_) = A + nb + lda*(n_) + ((m_)-(n_)+nb)` (flat offset form). -/
def AUi (nb lda m n : ℤ) : ℤ := nb + lda * n + (m - n + nb)

/-- Flat offset of logical entry `(i, j)` in the active band view. -/
def bandOffset (uplo : CoreblasEnum) (nb lda i j : ℤ) : ℤ :=
  if uplo = CoreblasEnum.Upper then AUi nb lda i j else ALi nb lda i j

/-- One column update of a left reflector application (the column loop body of
`LAPACKE_zlarfx` side `L`): `C(:,j) -= (tau * vᴴ C(:,j)) * v`. -/
def larfxLstep (conjK : K → K) (tau : K) (v : ℕ → K) (m : ℕ) (p ldx : ℤ)
    (B : ℤ → K) (j : ℕ) : ℤ → K :=
  let t := tau * ∑ k ∈ Finset.range m, conjK (v k) * B (p + ldx * j + k)
  vecMap B (p + ldx * j) 1 m (fun i a => a - t * v i)

/-- Modelled from the external LAPACK interface (`LAPACKE_zlarfx`, side `L`):
apply `H = I - tau*v*vᴴ` from the left to the `m`-by-`n` block at flat offset
`p` with column stride `ldx`, column by column. -/
def larfxL (conjK : K → K) (m n : ℕ) (v : ℕ → K) (tau : K) (A : ℤ → K)
    (p ldx : ℤ) : ℤ → K :=
  (List.range n).foldl (larfxLstep conjK tau v m p ldx) A

/-- One row update of a right reflector application (the row loop body of
`LAPACKE_zlarfx` side `R`): `C(i,:) -= (tau * C(i,:)·v) * vᴴ`. -/
def larfxRstep (conjK : K → K) (tau : K) (v : ℕ → K) (n : ℕ) (p ldx : ℤ)
    (B : ℤ → K) (i : ℕ) : ℤ → K :=
  let t := tau * ∑ k ∈ Finset.range n, B (p + i + ldx * k) * v k
  vecMap B (p + i) ldx n (fun j a => a - t * conjK (v j))

/-- Modelled from the external LAPACK interface (`LAPACKE_zlarfx`, side `R`):
apply `H = I - tau*v*vᴴ` from the right to the `m`-by-`n` block at flat
offset `p` with column stride `ldx`, row by row. -/
def larfxR (conjK : K → K) (m n : ℕ) (v : ℕ → K) (tau : K) (A : ℤ → K)
    (p ldx : ℤ) : ℤ → K :=
  (List.range m).foldl (larfxRstep conjK tau v n p ldx) A

/-- Mutable buffers of the bulge-chasing kernels: the band buffer `A` and the
reflector store `VQ`/`TAUQ`/`VP`/`TAUP`.  (The scratch workspace `WORK` is
used by the external `larfx` only as temporary storage and carries no
result.) -/
structure BState (K : Type) where
  A : ℤ → K
  VQ : ℤ → K
  TAUQ : ℤ → K
  VP : ℤ → K
  TAUP : ℤ → K

/-- Reflector-store position selection performed by the bulge-chasing
kernels: values-only mode (`wantz = 0`) uses the ping-pong formula
`((sweep+1) % 2) * n + pos` for both the vector and the scalar offset,
otherwise `findVTpos` is consulted.  Returns `(vpos, taupos)`. -/
def vtPos (P : Prims K) (n nb Vblksiz sweep pos wantz : ℤ) : ℤ × ℤ :=
  if wantz = 0 then (((sweep + 1) % 2) * n + pos, ((sweep + 1) % 2) * n + pos)
  else P.findVTpos n nb Vblksiz sweep pos

/-- Upper branch of `coreblas_zgbtype1cb` (`src/core_blas/core_zgbtype1cb.c`).
The copy/zero loop over the eliminated row is split into its read pass (into
`VP`, reading the pre-call buffer) and its write pass (zeroing in `A`); the
two passes touch different arrays, entrywise in the same order as the C
loop. -/
def type1Upper (P : Prims K) (n nb lda st ed sweep Vblksiz wantz : ℤ)
    (S : BState K) : BState K :=
  let vp := vtPos P n nb Vblksiz sweep st wantz
  let vpos := vp.1
  let taupos := vp.2
  let LDX := lda - 1
  let len := (ed - st + 1).toNat
  -- Eliminate the row at st-1
  let VP1 := Function.update S.VP vpos 1
  let VP2 := vecMap VP1 (vpos + 1) 1 (len - 1)
    (fun i _ => P.conj (S.A (AUi nb lda (st - 1) (st + 1 + i))))
  let A1 := vecMap S.A (AUi nb lda (st - 1) (st + 1)) (lda - 1) (len - 1)
    (fun _ _ => 0)
  -- ctmp = conj(AU(st-1,st)); larfg(len, &ctmp, VP(vpos+1), 1, TAUP(taupos));
  -- AU(st-1,st) = ctmp
  let r1 := P.larfg len (P.conj (A1 (AUi nb lda (st - 1) st)))
    ((List.range (len - 1)).map (fun i => VP2 (vpos + 1 + i)))
  let VP3 := vecMap VP2 (vpos + 1) 1 (len - 1) (fun i _ => r1.2.1.getD i 0)
  let TAUP1 := Function.update S.TAUP taupos r1.2.2
  let A2 := Function.update A1 (AUi nb lda (st - 1) st) r1.1
  -- Apply right on A(st:ed, st:ed)
  let A3 := larfxR P.conj len len (fun i => VP3 (vpos + i)) (TAUP1 taupos) A2
    (AUi nb lda st st) LDX
  -- Eliminate the created col at st
  let VQ1 := Function.update S.VQ vpos 1
  let VQ2 := vecMap VQ1 (vpos + 1) 1 (len - 1)
    (fun i _ => A3 (AUi nb lda (st + 1) st + i))
  let A4 := vecMap A3 (AUi nb lda (st + 1) st) 1 (len - 1) (fun _ _ => 0)
  let r2 := P.larfg len (A4 (AUi nb lda st st))
    ((List.range (len - 1)).map (fun i => VQ2 (vpos + 1 + i)))
  let VQ3 := vecMap VQ2 (vpos + 1) 1 (len - 1) (fun i _ => r2.2.1.getD i 0)
  let TAUQ1 := Function.update S.TAUQ taupos r2.2.2
  let A5 := Function.update A4 (AUi nb lda st st) r2.1
  -- lenj = len-1; apply left on A(st:ed, st+1:ed)
  let A6 := larfxL P.conj len (len - 1) (fun i => VQ3 (vpos + i))
    (P.conj (TAUQ1 taupos)) A5 (AUi nb lda st (st + 1)) LDX
  BState.mk A6 VQ3 TAUQ1 VP3 TAUP1

/-- Lower branch of `coreblas_zgbtype1cb` (`src/core_blas/core_zgbtype1cb.c`),
with the same read/write pass split for the row elimination loop as in
`type1Upper`. -/
def type1Lower (P : Prims K) (n nb lda st ed sweep Vblksiz wantz : ℤ)
    (S : BState K) : BState K :=
  let vp := vtPos P n nb Vblksiz sweep st wantz
  let vpos := vp.1
  let taupos := vp.2
  let LDX := lda - 1
  let len := (ed - st + 1).toNat
  -- Eliminate the col at st-1
  let VQ1 := Function.update S.VQ vpos 1
  let VQ2 := vecMap VQ1 (vpos + 1) 1 (len - 1)
    (fun i _ => S.A (ALi nb lda (st + 1) (st - 1) + i))
  let A1 := vecMap S.A (ALi nb lda (st + 1) (st - 1)) 1 (len - 1) (fun _ _ => 0)
  let r1 := P.larfg len (A1 (ALi nb lda st (st - 1)))
    ((List.range (len - 1)).map (fun i => VQ2 (vpos + 1 + i)))
  let VQ3 := vecMap VQ2 (vpos + 1) 1 (len - 1) (fun i _ => r1.2.1.getD i 0)
  let TAUQ1 := Function.update S.TAUQ taupos r1.2.2
  let A2 := Function.update A1 (ALi nb lda st (st - 1)) r1.1
  -- Apply left on A(st:ed, st:ed)
  let A3 := larfxL P.conj len len (fun i => VQ3 (vpos + i))
    (P.conj (TAUQ1 taupos)) A2 (ALi nb lda st st) LDX
  -- Eliminate the created row at st
  let VP1 := Function.update S.VP vpos 1
  let VP2 := vecMap VP1 (vpos + 1) 1 (len - 1)
    (fun i _ => P.conj (A3 (ALi nb lda st (st + 1 + i))))
  let A4 := vecMap A3 (ALi nb lda st (st + 1)) (lda - 1) (len - 1)
    (fun _ _ => 0)
  let r2 := P.larfg len (P.conj (A4 (ALi nb lda st st)))
    ((List.range (len - 1)).map (fun i => VP2 (vpos + 1 + i)))
  let VP3 := vecMap VP2 (vpos + 1) 1 (len - 1) (fun i _ => r2.2.1.getD i 0)
  let TAUP1 := Function.update S.TAUP taupos r2.2.2
  let A5 := Function.update A4 (ALi nb lda st st) r2.1
  -- lenj = len-1; apply right on A(st+1:ed, st:ed)
  let A6 := larfxR P.conj (len - 1) len (fun i => VP3 (vpos + i))
    (TAUP1 taupos) A5 (ALi nb lda (st + 1) st) LDX
  BState.mk A6 VQ3 TAUQ1 VP3 TAUP1

/-- `coreblas_zgbtype1cb`: TYPE 1 band-bidiagonal columnwise-Householder
kernel, dispatching on `uplo` exactly as the C source does. -/
def coreblas_zgbtype1cb (P : Prims K) (uplo : CoreblasEnum)
    (n nb lda st ed sweep Vblksiz wantz : ℤ) (S : BState K) : BState K :=
  if uplo = CoreblasEnum.Upper then
    type1Upper P n nb lda st ed sweep Vblksiz wantz S
  else
    type1Lower P n nb lda st ed sweep Vblksiz wantz S

/-- First guarded block (`len > 0`) of the upper branch of
`coreblas_zgbtype2cb`: apply the remaining left update coming from the
type1/3 kernel onto `A(st:ed, J1:J2)`. -/
def type2UpperP1 (P : Prims K) (n nb lda st ed sweep Vblksiz wantz : ℤ)
    (S : BState K) : BState K :=
  let vp := vtPos P n nb Vblksiz sweep st wantz
  let LDX := lda - 1
  let J1 := ed + 1
  let lem := (ed - st + 1).toNat
  let len := (min (ed + nb) (n - 1) - J1 + 1).toNat
  BState.mk
    (larfxL P.conj lem len (fun i => S.VQ (vp.1 + i)) (P.conj (S.TAUQ vp.2))
      S.A (AUi nb lda st J1) LDX)
    S.VQ S.TAUQ S.VP S.TAUP

/-- Second guarded block (`len > 1`) of the upper branch of
`coreblas_zgbtype2cb`: remove the top row of the created bulge into a new
`VP`/`TAUP` pair and apply it from the right onto `A(st+1:ed, J1:J2)`. -/
def type2UpperP2 (P : Prims K) (n nb lda st ed sweep Vblksiz wantz : ℤ)
    (S : BState K) : BState K :=
  let vp := vtPos P n nb Vblksiz sweep (ed + 1) wantz
  let vpos := vp.1
  let taupos := vp.2
  let LDX := lda - 1
  let J1 := ed + 1
  let lem := (ed - st + 1).toNat
  let len := (min (ed + nb) (n - 1) - J1 + 1).toNat
  -- Remove the top row of the created bulge
  let VP1 := Function.update S.VP vpos 1
  let VP2 := vecMap VP1 (vpos + 1) 1 (len - 1)
    (fun i _ => P.conj (S.A (AUi nb lda st (J1 + 1 + i))))
  let A1 := vecMap S.A (AUi nb lda st (J1 + 1)) (lda - 1) (len - 1)
    (fun _ _ => 0)
  -- Eliminate the row at st
  let r := P.larfg len (P.conj (A1 (AUi nb lda st J1)))
    ((List.range (len - 1)).map (fun i => VP2 (vpos + 1 + i)))
  let VP3 := vecMap VP2 (vpos + 1) 1 (len - 1) (fun i _ => r.2.1.getD i 0)
  let TAUP1 := Function.update S.TAUP taupos r.2.2
  let A2 := Function.update A1 (AUi nb lda st J1) r.1
  -- Apply right on A(st+1:ed, J1:J2) (lem is decreased by one)
  let A3 := larfxR P.conj (lem - 1) len (fun i => VP3 (vpos + i))
    (TAUP1 taupos) A2 (AUi nb lda (st + 1) J1) LDX
  BState.mk A3 S.VQ S.TAUQ VP3 TAUP1

/-- First guarded block (`len > 0`) of the lower branch of
`coreblas_zgbtype2cb`: apply the remaining right update coming from the
type1/3 kernel onto `A(J1:J2, st:ed)`. -/
def type2LowerP1 (P : Prims K) (n nb lda st ed sweep Vblksiz wantz : ℤ)
    (S : BState K) : BState K :=
  let vp := vtPos P n nb Vblksiz sweep st wantz
  let LDX := lda - 1
  let J1 := ed + 1
  let lem := (ed - st + 1).toNat
  let len := (min (ed + nb) (n - 1) - J1 + 1).toNat
  BState.mk
    (larfxR P.conj len lem (fun i => S.VP (vp.1 + i)) (S.TAUP vp.2)
      S.A (ALi nb lda J1 st) LDX)
    S.VQ S.TAUQ S.VP S.TAUP

/-- Second guarded block (`len > 1`) of the lower branch of
`coreblas_zgbtype2cb`: remove the first column of the created bulge into a
new `VQ`/`TAUQ` pair and apply it from the left onto `A(J1:J2, st+1:ed)`. -/
def type2LowerP2 (P : Prims K) (n nb lda st ed sweep Vblksiz wantz : ℤ)
    (S : BState K) : BState K :=
  let vp := vtPos P n nb Vblksiz sweep (ed + 1) wantz
  let vpos := vp.1
  let taupos := vp.2
  let LDX := lda - 1
  let J1 := ed + 1
  let lem := (ed - st + 1).toNat
  let len := (min (ed + nb) (n - 1) - J1 + 1).toNat
  -- Remove the first column of the created bulge
  let VQ1 := Function.update S.VQ vpos 1
  let VQ2 := vecMap VQ1 (vpos + 1) 1 (len - 1)
    (fun i _ => S.A (ALi nb lda (J1 + 1) st + i))
  let A1 := vecMap S.A (ALi nb lda (J1 + 1) st) 1 (len - 1) (fun _ _ => 0)
  -- Eliminate the col at st
  let r := P.larfg len (A1 (ALi nb lda J1 st))
    ((List.range (len - 1)).map (fun i => VQ2 (vpos + 1 + i)))
  let VQ3 := vecMap VQ2 (vpos + 1) 1 (len - 1) (fun i _ => r.2.1.getD i 0)
  let TAUQ1 := Function.update S.TAUQ taupos r.2.2
  let A2 := Function.update A1 (ALi nb lda J1 st) r.1
  -- Apply left on A(J1:J2, st+1:ed) (lem is decreased by one)
  let A3 := larfxL P.conj len (lem - 1) (fun i => VQ3 (vpos + i))
    (P.conj (TAUQ1 taupos)) A2 (ALi nb lda J1 (st + 1)) LDX
  BState.mk A3 VQ3 TAUQ1 S.VP S.TAUP

/-- `coreblas_zgbtype2cb`: TYPE 2 band-bidiagonal columnwise-Householder
kernel (`src/core_blas/core_zgbtype2cb.c`).  The two work phases carry their
own guards on the next-block length `len = J2 - J1 + 1`, exactly as in the C
source. -/
def coreblas_zgbtype2cb (P : Prims K) (uplo : CoreblasEnum)
    (n nb lda st ed sweep Vblksiz wantz : ℤ) (S : BState K) : BState K :=
  let len := min (ed + nb) (n - 1) - (ed + 1) + 1
  if uplo = CoreblasEnum.Upper then
    let S1 := if 0 < len then type2UpperP1 P n nb lda st ed sweep Vblksiz wantz S
              else S
    if 1 < len then type2UpperP2 P n nb lda st ed sweep Vblksiz wantz S1 else S1
  else
    let S1 := if 0 < len then type2LowerP1 P n nb lda st ed sweep Vblksiz wantz S
              else S
    if 1 < len then type2LowerP2 P n nb lda st ed sweep Vblksiz wantz S1 else S1

/-- The logical `(row, col)` region of the band buffer that one
`coreblas_zgbtype2cb` call may write: the current window crossed with the
next block `[J1, J2]` (`J1 = ed+1`, `J2 = min(ed+nb, n-1)`), padded so that
the unconditional pivot write of the second phase is covered even for
degenerate window arguments. -/
def type2Window (uplo : CoreblasEnum) (n nb st ed : ℤ) (r c : ℤ) : Prop :=
  if uplo = CoreblasEnum.Upper then
    st ≤ r ∧ r ≤ max ed st ∧ ed + 1 ≤ c ∧ c ≤ max (min (ed + nb) (n - 1)) (ed + 1)
  else
    ed + 1 ≤ r ∧ r ≤ max (min (ed + nb) (n - 1)) (ed + 1) ∧ st ≤ c ∧ c ≤ max ed st

/-- The exact logical rectangle `[st,ed] × [J1,J2]` (upper view; transposed
for the lower view) that the pending-update phase of `coreblas_zgbtype2cb`
applies the stored reflector onto. -/
def type2Rect (uplo : CoreblasEnum) (n nb st ed : ℤ) (r c : ℤ) : Prop :=
  if uplo = CoreblasEnum.Upper then
    st ≤ r ∧ r ≤ ed ∧ ed + 1 ≤ c ∧ c ≤ min (ed + nb) (n - 1)
  else
    ed + 1 ≤ r ∧ r ≤ min (ed + nb) (n - 1) ∧ st ≤ c ∧ c ≤ ed

/-- Representable logical positions lying strictly outside the band of
half-width `nb` (the fill area of the active view: sub-diagonals
`nb < i-j ≤ 2nb` for the lower view, super-diagonals `nb < j-i ≤ 2nb` for
the upper view). -/
def offBandPos (uplo : CoreblasEnum) (n nb : ℤ) (i j : ℤ) : Prop :=
  0 ≤ i ∧ i < n ∧ 0 ≤ j ∧ j < n ∧
  (if uplo = CoreblasEnum.Upper then nb < j - i ∧ j - i ≤ 2 * nb
   else nb < i - j ∧ i - j ≤ 2 * nb)

/-- The elimination line at index `x` of the active view: row `x` for the
upper view, column `x` for the lower view. -/
def elimLine (uplo : CoreblasEnum) (x : ℤ) (i j : ℤ) : Prop :=
  if uplo = CoreblasEnum.Upper then i = x else j = x

/-- Value-level description of the first reflector a type-1 call generates
(the `(VP, TAUP)` pair for the upper view, `(VQ, TAUQ)` for the lower view):
the `larfg` result on the eliminated row/column read from the band buffer
`Aa`, with the pivot taken after the zeroing pass. -/
def t1r1 (P : Prims K) (uplo : CoreblasEnum) (nb lda st ed : ℤ)
    (Aa : ℤ → K) : K × List K × K :=
  if uplo = CoreblasEnum.Upper then
    P.larfg (ed - st + 1).toNat
      (P.conj (vecMap Aa (AUi nb lda (st - 1) (st + 1)) (lda - 1)
        ((ed - st + 1).toNat - 1) (fun _ _ => 0) (AUi nb lda (st - 1) st)))
      ((List.range ((ed - st + 1).toNat - 1)).map
        (fun i => P.conj (Aa (AUi nb lda (st - 1) (st + 1 + i)))))
  else
    P.larfg (ed - st + 1).toNat
      (vecMap Aa (ALi nb lda (st + 1) (st - 1)) 1 ((ed - st + 1).toNat - 1)
        (fun _ _ => 0) (ALi nb lda st (st - 1)))
      ((List.range ((ed - st + 1).toNat - 1)).map
        (fun i => Aa (ALi nb lda (st + 1) (st - 1) + i)))

/-- Value-level description of the band buffer after a type-1 call has
eliminated the off-diagonal row/column at `st-1` and applied the first
reflector to the diagonal block. -/
def t1mid (P : Prims K) (uplo : CoreblasEnum) (nb lda st ed : ℤ)
    (Aa : ℤ → K) : ℤ → K :=
  if uplo = CoreblasEnum.Upper then
    let r1 := t1r1 P uplo nb lda st ed Aa
    let A1 := vecMap Aa (AUi nb lda (st - 1) (st + 1)) (lda - 1)
      ((ed - st + 1).toNat - 1) (fun _ _ => 0)
    let A2 := Function.update A1 (AUi nb lda (st - 1) st) r1.1
    larfxR P.conj (ed - st + 1).toNat (ed - st + 1).toNat
      (fun i => if i = 0 then 1 else r1.2.1.getD (i - 1) 0) r1.2.2 A2
      (AUi nb lda st st) (lda - 1)
  else
    let r1 := t1r1 P uplo nb lda st ed Aa
    let A1 := vecMap Aa (ALi nb lda (st + 1) (st - 1)) 1
      ((ed - st + 1).toNat - 1) (fun _ _ => 0)
    let A2 := Function.update A1 (ALi nb lda st (st - 1)) r1.1
    larfxL P.conj (ed - st + 1).toNat (ed - st + 1).toNat
      (fun i => if i = 0 then 1 else r1.2.1.getD (i - 1) 0) (P.conj r1.2.2) A2
      (ALi nb lda st st) (lda - 1)

/-- Value-level description of the second reflector a type-1 call generates
(the `(VQ, TAUQ)` pair for the upper view, `(VP, TAUP)` for the lower view):
the `larfg` result on the bulge row/column of the mid-call buffer `t1mid`. -/
def t1r2 (P : Prims K) (uplo : CoreblasEnum) (nb lda st ed : ℤ)
    (Aa : ℤ → K) : K × List K × K :=
  if uplo = CoreblasEnum.Upper then
    let A3 := t1mid P uplo nb lda st ed Aa
    let A4 := vecMap A3 (AUi nb lda (st + 1) st) 1 ((ed - st + 1).toNat - 1)
      (fun _ _ => 0)
    P.larfg (ed - st + 1).toNat (A4 (AUi nb lda st st))
      ((List.range ((ed - st + 1).toNat - 1)).map
        (fun i => A3 (AUi nb lda (st + 1) st + i)))
  else
    let A3 := t1mid P uplo nb lda st ed Aa
    let A4 := vecMap A3 (ALi nb lda st (st + 1)) (lda - 1)
      ((ed - st + 1).toNat - 1) (fun _ _ => 0)
    P.larfg (ed - st + 1).toNat (P.conj (A4 (ALi nb lda st st)))
      ((List.range ((ed - st + 1).toNat - 1)).map
        (fun i => P.conj (A3 (ALi nb lda st (st + 1 + i)))))

/-- Claim C1 exactly as frozen, specialized to the concrete scalar field used
for counterexamples: for every valid type-1 call on a band buffer whose
entries outside the band of half-width `nb` are zero except (possibly) the
off-band part of the column/row at `st-1`, after the call the only entries
outside the band that may be nonzero lie on the elimination line at `st`
that the next type-2 call is responsible for. -/
def C1_claim : Prop :=
  ∀ (P : Prims ℚ) (uplo : CoreblasEnum) (n nb lda st ed sweep Vblksiz wantz : ℤ)
    (S : BState ℚ),
    1 ≤ st → st ≤ ed → ed < n → ed - st + 1 ≤ nb → 3 * nb + 1 ≤ lda →
    (∀ i j : ℤ, offBandPos uplo n nb i j → ¬ elimLine uplo (st - 1) i j →
      S.A (bandOffset uplo nb lda i j) = 0) →
    (∀ i j : ℤ, offBandPos uplo n nb i j → ¬ elimLine uplo st i j →
      (coreblas_zgbtype1cb P uplo n nb lda st ed sweep Vblksiz wantz S).A
        (bandOffset uplo nb lda i j) = 0)

/-- Band buffer for the C1 counterexample: a single below-band nonzero in
column `st - 1 = 0`, at logical position `(4, 0)` (flat offset
`AL(4,0) = 2 + 0 + 4 = 6` for `nb = 2`, `lda = 7`), which the claim's
hypothesis explicitly permits. -/
def cexA : ℤ → ℚ := fun off => if off = 6 then 1 else 0

/-- Counterexample state for C1. -/
def cexS : BState ℚ := ⟨cexA, fun _ => 0, fun _ => 0, fun _ => 0, fun _ => 0⟩

/-- Exact square root of a natural number by bounded search (structural, so
it evaluates inside the kernel): `some a` with `a*a = m` when `m` is a
perfect square, `none` otherwise. -/
def natSqrtExact (m : ℕ) : Option ℕ :=
  (List.range (m + 1)).find? (fun a => a * a = m)

/-- Exact rational square root: returns `r` with `r*r = q` and `0 ≤ r` when
`q` is a perfect square of a rational, and `0` otherwise.  Used to
instantiate the external reflector generator at perfect-square inputs. -/
def ratSqrt (q : ℚ) : ℚ :=
  match natSqrtExact q.num.toNat, natSqrtExact q.den with
  | some a, some b => (a : ℚ) / (b : ℚ)
  | _, _ => 0

/-- Modelled from the external LAPACK interface (`LAPACKE_dlarfg`, the real
double-precision instantiation generated from this `z` template): given the
pivot `alpha` and the `n-1` trailing entries `x`, produce `(beta, v, tau)`
where `beta = -sign(alpha) * sqrt(alpha^2 + |x|^2)` is the new pivot value,
`v = x / (alpha - beta)` is the scaled reflector tail and
`tau = (beta - alpha) / beta`; when the tail has norm zero, `tau = 0` and
nothing changes. -/
def dlarfg (_n : ℕ) (alpha : ℚ) (x : List ℚ) : ℚ × List ℚ × ℚ :=
  let xnorm2 := (x.map (fun t => t * t)).sum
  if xnorm2 = 0 then (alpha, x, 0)
  else
    let beta := if 0 ≤ alpha then -ratSqrt (alpha * alpha + xnorm2)
                else ratSqrt (alpha * alpha + xnorm2)
    (beta, x.map (fun t => t / (alpha - beta)), (beta - alpha) / beta)

/-- Concrete primitive pack for the real double-precision kernels:
conjugation is the identity and the reflector generator is `dlarfg`.  The
vectors-retained position function is never consulted by the values-only
(`wantz = 0`) calls exercised below, and its source (`bulge.h`) is not part
of the reviewed material, so it is left trivial. -/
def rprims : Prims ℚ := ⟨id, dlarfg, fun _ _ _ _ _ => (0, 0)⟩

/-- All-zero `coreblas_zlarfb_gemm` state used for concrete runs. -/
def zeroLS : LState ℚ := ⟨fun _ => 0, fun _ => 0⟩

/-- All-zero `coreblas_ztsmqr` state used for concrete runs. -/
def zeroTS : TSState ℚ := ⟨fun _ => 0, fun _ => 0, fun _ => 0⟩

/-- Identity stand-in for the external `coreblas_zparfb` used in concrete
runs (its body is irrelevant to the properties checked here). -/
def parfbId : CoreblasEnum → CoreblasEnum → ℤ → ℤ → ℤ → ℤ → ℤ → ℤ → ℤ → ℤ →
    TSState ℚ → TSState ℚ := fun _ _ _ _ _ _ _ _ _ _ S => S

/-- All-zero bulge-chasing state used for concrete runs. -/
def zeroBS : BState ℚ := ⟨fun _ => 0, fun _ => 0, fun _ => 0, fun _ => 0, fun _ => 0⟩

/-- The fixed banded input of the concrete scenario in §8 of the spec: lower
view, `n = 4`, `nb = 2`, `lda = 7` (flat offsets `AL(i,j) = 2 + 7j + (i-j)`).
Logical entries: `A(0,0)=1, A(1,0)=3, A(2,0)=4, A(1,1)=1, A(2,1)=-9/2,
A(3,1)=2, A(2,2)=-5, A(3,2)=1, A(3,3)=1`; everything else, including the
out-of-band `(3,0)`, is zero.  The values are chosen so the two Householder
norms are perfect squares and the scalars can be computed by hand:
`larfg(3,4)` gives `beta=-5, tau=8/5, v=1/2`, and after the left update the
bulge row is `(3,4)` again, so the second `larfg` also gives `tau=8/5`. -/
def exA : ℤ → ℚ := fun off =>
  if off = 2 then 1 else if off = 3 then 3 else if off = 4 then 4
  else if off = 9 then 1 else if off = 10 then -9/2 else if off = 11 then 2
  else if off = 16 then -5 else if off = 17 then 1 else if off = 23 then 1
  else 0

/-- Initial state of the concrete scenario: the fixed band buffer `exA` and
an all-zero reflector store. -/
def exS : BState ℚ := ⟨exA, fun _ => 0, fun _ => 0, fun _ => 0, fun _ => 0⟩

/-- Step 1 of the upper type-1 sequence as the spec words it: copy the
`len-1` off-band entries at row `st-1`, columns `st+1..ed`, conjugated, into
the reflector vector `VP` (whose leading entry is set to one) and set those
entries of `A` to zero. -/
def t1uSpecStep1 (P : Prims K) (n nb lda st ed sweep Vblksiz wantz : ℤ)
    (S : BState K) : BState K :=
  let vp := vtPos P n nb Vblksiz sweep st wantz
  let len := (ed - st + 1).toNat
  { S with
    VP := vecMap (Function.update S.VP vp.1 1) (vp.1 + 1) 1 (len - 1)
      (fun i _ => P.conj (S.A (AUi nb lda (st - 1) (st + 1 + i)))),
    A := vecMap S.A (AUi nb lda (st - 1) (st + 1)) (lda - 1) (len - 1)
      (fun _ _ => 0) }

/-- Step 2 of the upper type-1 sequence as the spec words it: generate a
Householder reflector (`larfg`) from the conjugated pivot and the copied
entries, producing `TAUP`, scaling the stored tail and overwriting the pivot
entry at `(st-1, st)`. -/
def t1uSpecStep2 (P : Prims K) (n nb lda st ed sweep Vblksiz wantz : ℤ)
    (S : BState K) : BState K :=
  let vp := vtPos P n nb Vblksiz sweep st wantz
  let len := (ed - st + 1).toNat
  let r := P.larfg len (P.conj (S.A (AUi nb lda (st - 1) st)))
    ((List.range (len - 1)).map (fun i => S.VP (vp.1 + 1 + i)))
  { S with
    VP := vecMap S.VP (vp.1 + 1) 1 (len - 1) (fun i _ => r.2.1.getD i 0),
    TAUP := Function.update S.TAUP vp.2 r.2.2,
    A := Function.update S.A (AUi nb lda (st - 1) st) r.1 }

/-- Step 3 of the upper type-1 sequence as the spec words it: apply the
generated reflector from the right to the `len`-by-`len` diagonal block
`A(st:ed, st:ed)`, creating the bulge column. -/
def t1uSpecStep3 (P : Prims K) (n nb lda st ed sweep Vblksiz wantz : ℤ)
    (S : BState K) : BState K :=
  let vp := vtPos P n nb Vblksiz sweep st wantz
  let len := (ed - st + 1).toNat
  { S with
    A := larfxR P.conj len len (fun i => S.VP (vp.1 + i)) (S.TAUP vp.2) S.A
      (AUi nb lda st st) (lda - 1) }

/-- Step 4 of the upper type-1 sequence as the spec words it: eliminate the
created bulge column at `st` the same way, into `VQ`/`TAUQ`. -/
def t1uSpecStep4 (P : Prims K) (n nb lda st ed sweep Vblksiz wantz : ℤ)
    (S : BState K) : BState K :=
  let vp := vtPos P n nb Vblksiz sweep st wantz
  let len := (ed - st + 1).toNat
  let VQ1 := vecMap (Function.update S.VQ vp.1 1) (vp.1 + 1) 1 (len - 1)
    (fun i _ => S.A (AUi nb lda (st + 1) st + i))
  let A1 := vecMap S.A (AUi nb lda (st + 1) st) 1 (len - 1) (fun _ _ => 0)
  let r := P.larfg len (A1 (AUi nb lda st st))
    ((List.range (len - 1)).map (fun i => VQ1 (vp.1 + 1 + i)))
  { S with
    VQ := vecMap VQ1 (vp.1 + 1) 1 (len - 1) (fun i _ => r.2.1.getD i 0),
    TAUQ := Function.update S.TAUQ vp.2 r.2.2,
    A := Function.update A1 (AUi nb lda st st) r.1 }

/-- Step 5 of the upper type-1 sequence as the spec words it: apply the
second reflector from the left to the `len`-by-`(len-1)` sub-block
`A(st:ed, st+1:ed)`. -/
def t1uSpecStep5 (P : Prims K) (n nb lda st ed sweep Vblksiz wantz : ℤ)
    (S : BState K) : BState K :=
  let vp := vtPos P n nb Vblksiz sweep st wantz
  let len := (ed - st + 1).toNat
  { S with
    A := larfxL P.conj len (len - 1) (fun i => S.VQ (vp.1 + i))
      (P.conj (S.TAUQ vp.2)) S.A (AUi nb lda st (st + 1)) (lda - 1) }

/-! ### Theorems -/

theorem vecMap_zero (A : ℤ → K) (base stride : ℤ) (f : ℕ → K → K) :
    vecMap A base stride 0 f = A := rfl

theorem vecMap_succ (A : ℤ → K) (base stride : ℤ) (cnt : ℕ) (f : ℕ → K → K) :
    vecMap A base stride (cnt + 1) f =
      Function.update (vecMap A base stride cnt f) (base + stride * (cnt : ℤ))
        (f cnt (vecMap A base stride cnt f (base + stride * (cnt : ℤ)))) := by
  unfold vecMap
  rw [List.range_succ, List.foldl_append]
  rfl

theorem vecMap_notin (A : ℤ → K) (base stride : ℤ) (cnt : ℕ) (f : ℕ → K → K)
    (off : ℤ) (h : ∀ k : ℕ, k < cnt → off ≠ base + stride * (k : ℤ)) :
    vecMap A base stride cnt f off = A off := by
  induction cnt with
  | zero => rfl
  | succ m ih =>
      rw [vecMap_succ, Function.update_noteq (h m (Nat.lt_succ_self m))]
      exact ih fun k hk => h k (Nat.lt_succ_of_lt hk)

theorem vecMap_at (A : ℤ → K) (base stride : ℤ) (cnt : ℕ) (f : ℕ → K → K)
    (hs : stride ≠ 0) (k : ℕ) (hk : k < cnt) :
    vecMap A base stride cnt f (base + stride * (k : ℤ)) =
      f k (A (base + stride * (k : ℤ))) := by
  induction cnt with
  | zero => omega
  | succ m ih =>
      rw [vecMap_succ]
      rcases Nat.lt_succ_iff_lt_or_eq.mp hk with h | h
      · have hne : base + stride * (k : ℤ) ≠ base + stride * (m : ℤ) := by
          intro hEq
          have h2 : stride * (k : ℤ) = stride * (m : ℤ) := by
            exact add_left_cancel hEq
          have h3 : (k : ℤ) = (m : ℤ) := mul_left_cancel₀ hs h2
          omega
        rw [Function.update_noteq hne]
        exact ih h
      · subst h
        rw [Function.update_same]
        congr 1
        refine vecMap_notin A base stride k f _ (fun j hj hEq => ?_)
        have h2 : stride * (k : ℤ) = stride * (j : ℤ) := add_left_cancel hEq
        have h3 : (k : ℤ) = (j : ℤ) := mul_left_cancel₀ hs h2
        omega

theorem vecMap_congr (A : ℤ → K) (base stride : ℤ) (cnt : ℕ) (f g : ℕ → K → K)
    (h : ∀ k, k < cnt → ∀ a, f k a = g k a) :
    vecMap A base stride cnt f = vecMap A base stride cnt g := by
  induction cnt with
  | zero => rfl
  | succ m ih =>
      rw [vecMap_succ, vecMap_succ, ih (fun k hk => h k (Nat.lt_succ_of_lt hk))]
      rw [h m (Nat.lt_succ_self m)]

/-- Frame lemma for a fold over `List.range n` whose steps all preserve the
value at offset `off`. -/
theorem range_foldl_frame (n : ℕ) (g : (ℤ → K) → ℕ → (ℤ → K)) (A : ℤ → K)
    (off : ℤ) (h : ∀ B j, j < n → g B j off = B off) :
    ((List.range n).foldl g A) off = A off := by
  induction n generalizing A with
  | zero => rfl
  | succ m ih =>
      rw [List.range_succ, List.foldl_append]
      simp only [List.foldl_cons, List.foldl_nil]
      rw [h _ m (Nat.lt_succ_self m)]
      exact ih A (fun B j hj => h B j (Nat.lt_succ_of_lt hj))


theorem update_frame {f : ℤ → K} {b a : ℤ} {v : K} (h : a ≠ b) :
    Function.update f b v a = f a := Function.update_noteq h v f

theorem vecMap_frame {A : ℤ → K} {base stride : ℤ} {cnt : ℕ} {f : ℕ → K → K}
    {off : ℤ} (h : ∀ k : ℕ, k < cnt → off ≠ base + stride * (k : ℤ)) :
    vecMap A base stride cnt f off = A off := vecMap_notin A base stride cnt f off h

theorem larfxL_frame {conjK : K → K} {m n : ℕ} {v : ℕ → K} {tau : K}
    {A : ℤ → K} {p ldx off : ℤ}
    (h : ∀ i j : ℕ, i < m → j < n → off ≠ p + ldx * (j : ℤ) + (i : ℤ)) :
    larfxL conjK m n v tau A p ldx off = A off := by
  unfold larfxL
  refine range_foldl_frame n _ A off (fun B j hj => ?_)
  unfold larfxLstep
  exact vecMap_frame (fun i hi hEq =>
    h i j hi hj (hEq.trans (by ring)))

theorem larfxR_frame {conjK : K → K} {m n : ℕ} {v : ℕ → K} {tau : K}
    {A : ℤ → K} {p ldx off : ℤ}
    (h : ∀ i j : ℕ, i < m → j < n → off ≠ p + (i : ℤ) + ldx * (j : ℤ)) :
    larfxR conjK m n v tau A p ldx off = A off := by
  unfold larfxR
  refine range_foldl_frame m _ A off (fun B i hi => ?_)
  unfold larfxRstep
  exact vecMap_frame (fun j hj hEq =>
    h i j hi hj (hEq.trans (by ring)))

theorem larfxL_congr {conjK : K → K} {m n : ℕ} {v w : ℕ → K} {tau : K}
    {A : ℤ → K} {p ldx : ℤ} (h : ∀ k, k < m → v k = w k) :
    larfxL conjK m n v tau A p ldx = larfxL conjK m n w tau A p ldx := by
  unfold larfxL
  have hstep : larfxLstep conjK tau v m p ldx = larfxLstep conjK tau w m p ldx := by
    funext B j
    unfold larfxLstep
    rw [Finset.sum_congr rfl (fun k hk => by
      rw [h k (Finset.mem_range.mp hk)])]
    exact vecMap_congr _ _ _ _ _ _ (fun i hi a => by rw [h i hi])
  rw [hstep]

theorem larfxR_congr {conjK : K → K} {m n : ℕ} {v w : ℕ → K} {tau : K}
    {A : ℤ → K} {p ldx : ℤ} (h : ∀ k, k < n → v k = w k) :
    larfxR conjK m n v tau A p ldx = larfxR conjK m n w tau A p ldx := by
  unfold larfxR
  have hstep : larfxRstep conjK tau v n p ldx = larfxRstep conjK tau w n p ldx := by
    funext B i
    unfold larfxRstep
    rw [Finset.sum_congr rfl (fun k hk => by
      rw [h k (Finset.mem_range.mp hk)])]
    exact vecMap_congr _ _ _ _ _ _ (fun j hj a => by rw [h j hj])
  rw [hstep]

/-- If `d*c` lies strictly between `-d` and `d` for positive `d`, then `c` and
the product are both zero (the band-offset separation argument). -/
theorem mul_bounded_eq_zero {d c x : ℤ} (hd : 0 < d) (h : d * c = x)
    (h1 : -d < x) (h2 : x < d) : c = 0 ∧ x = 0 := by
  have hc : c = 0 := by
    rcases lt_trichotomy c 0 with h3 | h3 | h3
    · exfalso
      have h4 : c ≤ -1 := by omega
      have h5 : d * c ≤ d * (-1) := by
        exact mul_le_mul_of_nonneg_left h4 (le_of_lt hd)
      rw [h, mul_neg_one] at h5
      omega
    · exact h3
    · exfalso
      have h4 : (1 : ℤ) ≤ c := by omega
      have h5 : d * 1 ≤ d * c := by
        exact mul_le_mul_of_nonneg_left h4 (le_of_lt hd)
      rw [h, mul_one] at h5
      omega
  refine ⟨hc, ?_⟩
  rw [hc, mul_zero] at h
  omega

/-- Frame property of the lower type-1 kernel on the band buffer: an offset
that is not of the form `AL(c+e, c)` for a column `c` in `[st-1, ed]` and a
logical diagonal distance `e` with `|e|` at most the window length is left
unchanged. -/
theorem type1Lower_A_frame {P : Prims K} {n nb lda st ed sweep Vblksiz wantz : ℤ}
    {S : BState K} {off : ℤ}
    (h : ∀ c e : ℤ, st - 1 ≤ c → c ≤ max ed st →
      -(max (ed - st + 1) 1) ≤ e → e ≤ max (ed - st + 1) 1 →
      off ≠ ALi nb lda (c + e) c) :
    (type1Lower P n nb lda st ed sweep Vblksiz wantz S).A off = S.A off := by
  simp only [type1Lower]
  refine (larfxR_frame ?_).trans ((update_frame ?_).trans ((vecMap_frame ?_).trans
    ((larfxL_frame ?_).trans ((update_frame ?_).trans (vecMap_frame ?_)))))
  · -- larfxR on A(st+1:ed, st:ed)
    intro i j hi hj hEq
    refine h (st + (j : ℤ)) (1 + (i : ℤ) - (j : ℤ)) (by omega) (by omega)
      (by omega) (by omega) (hEq.trans ?_)
    unfold ALi; ring
  · -- pivot update at AL(st, st)
    intro hEq
    refine h st 0 (by omega) (by omega) (by omega) (by omega) (hEq.trans ?_)
    unfold ALi; ring
  · -- zeroing the row at AL(st, st+1..), stride lda-1
    intro k hk hEq
    refine h (st + 1 + (k : ℤ)) (-1 - (k : ℤ)) (by omega) (by omega)
      (by omega) (by omega) (hEq.trans ?_)
    unfold ALi; ring
  · -- larfxL on A(st:ed, st:ed)
    intro i j hi hj hEq
    refine h (st + (j : ℤ)) ((i : ℤ) - (j : ℤ)) (by omega) (by omega)
      (by omega) (by omega) (hEq.trans ?_)
    unfold ALi; ring
  · -- pivot update at AL(st, st-1)
    intro hEq
    refine h (st - 1) 1 (by omega) (by omega) (by omega) (by omega)
      (hEq.trans ?_)
    unfold ALi; ring
  · -- zeroing the column at AL(st+1.., st-1), contiguous
    intro k hk hEq
    refine h (st - 1) (2 + (k : ℤ)) (by omega) (by omega) (by omega) (by omega)
      (hEq.trans ?_)
    unfold ALi; ring

/-- Frame property of the upper type-1 kernel on the band buffer, the
`AU`-addressed mirror of `type1Lower_A_frame`. -/
theorem type1Upper_A_frame {P : Prims K} {n nb lda st ed sweep Vblksiz wantz : ℤ}
    {S : BState K} {off : ℤ}
    (h : ∀ c e : ℤ, st - 1 ≤ c → c ≤ max ed st →
      -(max (ed - st + 1) 1) ≤ e → e ≤ max (ed - st + 1) 1 →
      off ≠ AUi nb lda (c + e) c) :
    (type1Upper P n nb lda st ed sweep Vblksiz wantz S).A off = S.A off := by
  simp only [type1Upper]
  refine (larfxL_frame ?_).trans ((update_frame ?_).trans ((vecMap_frame ?_).trans
    ((larfxR_frame ?_).trans ((update_frame ?_).trans (vecMap_frame ?_)))))
  · -- larfxL on A(st:ed, st+1:ed)
    intro i j hi hj hEq
    refine h (st + 1 + (j : ℤ)) ((i : ℤ) - 1 - (j : ℤ)) (by omega) (by omega)
      (by omega) (by omega) (hEq.trans ?_)
    unfold AUi; ring
  · -- pivot update at AU(st, st)
    intro hEq
    refine h st 0 (by omega) (by omega) (by omega) (by omega) (hEq.trans ?_)
    unfold AUi; ring
  · -- zeroing the column at AU(st+1.., st), contiguous
    intro k hk hEq
    refine h st (1 + (k : ℤ)) (by omega) (by omega) (by omega) (by omega)
      (hEq.trans ?_)
    unfold AUi; ring
  · -- larfxR on A(st:ed, st:ed)
    intro i j hi hj hEq
    refine h (st + (j : ℤ)) ((i : ℤ) - (j : ℤ)) (by omega) (by omega)
      (by omega) (by omega) (hEq.trans ?_)
    unfold AUi; ring
  · -- pivot update at AU(st-1, st)
    intro hEq
    refine h st (-1) (by omega) (by omega) (by omega) (by omega) (hEq.trans ?_)
    unfold AUi; ring
  · -- zeroing the row at AU(st-1, st+1..), stride lda-1
    intro k hk hEq
    refine h (st + 1 + (k : ℤ)) (-2 - (k : ℤ)) (by omega) (by omega)
      (by omega) (by omega) (hEq.trans ?_)
    unfold AUi; ring

/-- The pending-update phase of the upper type-2 kernel writes only inside
the rectangle `[st,ed] × [J1,J2]`. -/
theorem type2UpperP1_A_frame {P : Prims K} {n nb lda st ed sweep Vblksiz wantz : ℤ}
    {S : BState K} {off : ℤ}
    (h : ∀ r c : ℤ, st ≤ r → r ≤ ed → ed + 1 ≤ c → c ≤ min (ed + nb) (n - 1) →
      off ≠ AUi nb lda r c) :
    (type2UpperP1 P n nb lda st ed sweep Vblksiz wantz S).A off = S.A off := by
  simp only [type2UpperP1]
  refine larfxL_frame ?_
  intro i j hi hj hEq
  refine h (st + (i : ℤ)) (ed + 1 + (j : ℤ)) (by omega) (by omega) (by omega)
    (by omega) (hEq.trans ?_)
  unfold AUi; ring

/-- The pending-update phase of the lower type-2 kernel writes only inside
the rectangle `[J1,J2] × [st,ed]`. -/
theorem type2LowerP1_A_frame {P : Prims K} {n nb lda st ed sweep Vblksiz wantz : ℤ}
    {S : BState K} {off : ℤ}
    (h : ∀ r c : ℤ, ed + 1 ≤ r → r ≤ min (ed + nb) (n - 1) → st ≤ c → c ≤ ed →
      off ≠ ALi nb lda r c) :
    (type2LowerP1 P n nb lda st ed sweep Vblksiz wantz S).A off = S.A off := by
  simp only [type2LowerP1]
  refine larfxR_frame ?_
  intro i j hi hj hEq
  refine h (ed + 1 + (i : ℤ)) (st + (j : ℤ)) (by omega) (by omega) (by omega)
    (by omega) (hEq.trans ?_)
  unfold ALi; ring

/-- The bulge-elimination phase of the upper type-2 kernel writes only inside
the (padded) window `[st, max ed st] × [J1, max J2 J1]`. -/
theorem type2UpperP2_A_frame {P : Prims K} {n nb lda st ed sweep Vblksiz wantz : ℤ}
    {S : BState K} {off : ℤ}
    (h : ∀ r c : ℤ, st ≤ r → r ≤ max ed st → ed + 1 ≤ c →
      c ≤ max (min (ed + nb) (n - 1)) (ed + 1) → off ≠ AUi nb lda r c) :
    (type2UpperP2 P n nb lda st ed sweep Vblksiz wantz S).A off = S.A off := by
  simp only [type2UpperP2]
  refine (larfxR_frame ?_).trans ((update_frame ?_).trans (vecMap_frame ?_))
  · intro i j hi hj hEq
    refine h (st + 1 + (i : ℤ)) (ed + 1 + (j : ℤ)) (by omega) (by omega)
      (by omega) (by omega) (hEq.trans ?_)
    unfold AUi; ring
  · intro hEq
    refine h st (ed + 1) (by omega) (by omega) (by omega) (by omega)
      (hEq.trans ?_)
    unfold AUi; ring
  · intro k hk hEq
    refine h st (ed + 1 + 1 + (k : ℤ)) (by omega) (by omega) (by omega)
      (by omega) (hEq.trans ?_)
    unfold AUi; ring

/-- The bulge-elimination phase of the lower type-2 kernel writes only inside
the (padded) window `[J1, max J2 J1] × [st, max ed st]`. -/
theorem type2LowerP2_A_frame {P : Prims K} {n nb lda st ed sweep Vblksiz wantz : ℤ}
    {S : BState K} {off : ℤ}
    (h : ∀ r c : ℤ, ed + 1 ≤ r → r ≤ max (min (ed + nb) (n - 1)) (ed + 1) →
      st ≤ c → c ≤ max ed st → off ≠ ALi nb lda r c) :
    (type2LowerP2 P n nb lda st ed sweep Vblksiz wantz S).A off = S.A off := by
  simp only [type2LowerP2]
  refine (larfxL_frame ?_).trans ((update_frame ?_).trans (vecMap_frame ?_))
  · intro i j hi hj hEq
    refine h (ed + 1 + (i : ℤ)) (st + 1 + (j : ℤ)) (by omega) (by omega)
      (by omega) (by omega) (hEq.trans ?_)
    unfold ALi; ring
  · intro hEq
    refine h (ed + 1) st (by omega) (by omega) (by omega) (by omega)
      (hEq.trans ?_)
    unfold ALi; ring
  · intro k hk hEq
    refine h (ed + 1 + 1 + (k : ℤ)) st (by omega) (by omega) (by omega)
      (by omega) (hEq.trans ?_)
    unfold ALi; ring

theorem type1Lower_TAU_frame {P : Prims K} {n nb lda st ed sweep Vblksiz wantz : ℤ}
    {S : BState K} {i : ℤ}
    (h : i ≠ (vtPos P n nb Vblksiz sweep st wantz).2) :
    (type1Lower P n nb lda st ed sweep Vblksiz wantz S).TAUQ i = S.TAUQ i ∧
    (type1Lower P n nb lda st ed sweep Vblksiz wantz S).TAUP i = S.TAUP i := by
  simp only [type1Lower]
  exact ⟨update_frame h, update_frame h⟩

theorem type1Upper_TAU_frame {P : Prims K} {n nb lda st ed sweep Vblksiz wantz : ℤ}
    {S : BState K} {i : ℤ}
    (h : i ≠ (vtPos P n nb Vblksiz sweep st wantz).2) :
    (type1Upper P n nb lda st ed sweep Vblksiz wantz S).TAUQ i = S.TAUQ i ∧
    (type1Upper P n nb lda st ed sweep Vblksiz wantz S).TAUP i = S.TAUP i := by
  simp only [type1Upper]
  exact ⟨update_frame h, update_frame h⟩

theorem type1Lower_V_frame {P : Prims K} {n nb lda st ed sweep Vblksiz wantz : ℤ}
    {S : BState K} {i : ℤ}
    (h : i < (vtPos P n nb Vblksiz sweep st wantz).1 ∨
      (vtPos P n nb Vblksiz sweep st wantz).1 + max (ed - st + 1) 1 ≤ i) :
    (type1Lower P n nb lda st ed sweep Vblksiz wantz S).VQ i = S.VQ i ∧
    (type1Lower P n nb lda st ed sweep Vblksiz wantz S).VP i = S.VP i := by
  simp only [type1Lower]
  constructor <;>
    exact (vecMap_frame (fun k hk => by omega)).trans
      ((vecMap_frame (fun k hk => by omega)).trans
        (update_frame (by omega)))

theorem type1Upper_V_frame {P : Prims K} {n nb lda st ed sweep Vblksiz wantz : ℤ}
    {S : BState K} {i : ℤ}
    (h : i < (vtPos P n nb Vblksiz sweep st wantz).1 ∨
      (vtPos P n nb Vblksiz sweep st wantz).1 + max (ed - st + 1) 1 ≤ i) :
    (type1Upper P n nb lda st ed sweep Vblksiz wantz S).VQ i = S.VQ i ∧
    (type1Upper P n nb lda st ed sweep Vblksiz wantz S).VP i = S.VP i := by
  simp only [type1Upper]
  constructor <;>
    exact (vecMap_frame (fun k hk => by omega)).trans
      ((vecMap_frame (fun k hk => by omega)).trans
        (update_frame (by omega)))

theorem type2UpperP1_stores {P : Prims K} {n nb lda st ed sweep Vblksiz wantz : ℤ}
    {S : BState K} :
    (type2UpperP1 P n nb lda st ed sweep Vblksiz wantz S).VQ = S.VQ ∧
    (type2UpperP1 P n nb lda st ed sweep Vblksiz wantz S).TAUQ = S.TAUQ ∧
    (type2UpperP1 P n nb lda st ed sweep Vblksiz wantz S).VP = S.VP ∧
    (type2UpperP1 P n nb lda st ed sweep Vblksiz wantz S).TAUP = S.TAUP :=
  ⟨rfl, rfl, rfl, rfl⟩

theorem type2LowerP1_stores {P : Prims K} {n nb lda st ed sweep Vblksiz wantz : ℤ}
    {S : BState K} :
    (type2LowerP1 P n nb lda st ed sweep Vblksiz wantz S).VQ = S.VQ ∧
    (type2LowerP1 P n nb lda st ed sweep Vblksiz wantz S).TAUQ = S.TAUQ ∧
    (type2LowerP1 P n nb lda st ed sweep Vblksiz wantz S).VP = S.VP ∧
    (type2LowerP1 P n nb lda st ed sweep Vblksiz wantz S).TAUP = S.TAUP :=
  ⟨rfl, rfl, rfl, rfl⟩

theorem type2UpperP2_TAU_frame {P : Prims K}
    {n nb lda st ed sweep Vblksiz wantz : ℤ} {S : BState K} {i : ℤ}
    (hT : i ≠ (vtPos P n nb Vblksiz sweep (ed + 1) wantz).2) :
    (type2UpperP2 P n nb lda st ed sweep Vblksiz wantz S).TAUQ i = S.TAUQ i ∧
    (type2UpperP2 P n nb lda st ed sweep Vblksiz wantz S).TAUP i = S.TAUP i := by
  refine ⟨rfl, ?_⟩
  simp only [type2UpperP2]
  exact update_frame hT

theorem type2UpperP2_V_frame {P : Prims K}
    {n nb lda st ed sweep Vblksiz wantz : ℤ} {S : BState K} {i : ℤ}
    (hV : i < (vtPos P n nb Vblksiz sweep (ed + 1) wantz).1 ∨
      (vtPos P n nb Vblksiz sweep (ed + 1) wantz).1 +
        max (min (ed + nb) (n - 1) - ed) 1 ≤ i) :
    (type2UpperP2 P n nb lda st ed sweep Vblksiz wantz S).VQ i = S.VQ i ∧
    (type2UpperP2 P n nb lda st ed sweep Vblksiz wantz S).VP i = S.VP i := by
  refine ⟨rfl, ?_⟩
  simp only [type2UpperP2]
  exact (vecMap_frame (fun k hk => by omega)).trans
    ((vecMap_frame (fun k hk => by omega)).trans (update_frame (by omega)))

theorem type2LowerP2_TAU_frame {P : Prims K}
    {n nb lda st ed sweep Vblksiz wantz : ℤ} {S : BState K} {i : ℤ}
    (hT : i ≠ (vtPos P n nb Vblksiz sweep (ed + 1) wantz).2) :
    (type2LowerP2 P n nb lda st ed sweep Vblksiz wantz S).TAUQ i = S.TAUQ i ∧
    (type2LowerP2 P n nb lda st ed sweep Vblksiz wantz S).TAUP i = S.TAUP i := by
  refine ⟨?_, rfl⟩
  simp only [type2LowerP2]
  exact update_frame hT

theorem type2LowerP2_V_frame {P : Prims K}
    {n nb lda st ed sweep Vblksiz wantz : ℤ} {S : BState K} {i : ℤ}
    (hV : i < (vtPos P n nb Vblksiz sweep (ed + 1) wantz).1 ∨
      (vtPos P n nb Vblksiz sweep (ed + 1) wantz).1 +
        max (min (ed + nb) (n - 1) - ed) 1 ≤ i) :
    (type2LowerP2 P n nb lda st ed sweep Vblksiz wantz S).VQ i = S.VQ i ∧
    (type2LowerP2 P n nb lda st ed sweep Vblksiz wantz S).VP i = S.VP i := by
  refine ⟨?_, rfl⟩
  simp only [type2LowerP2]
  exact (vecMap_frame (fun k hk => by omega)).trans
    ((vecMap_frame (fun k hk => by omega)).trans (update_frame (by omega)))

theorem copyVec_val {W : ℤ → K} {vpos : ℤ} {cnt : ℕ} {g : ℕ → K} (j : ℕ)
    (hj : j < cnt) :
    vecMap (Function.update W vpos 1) (vpos + 1) 1 cnt (fun i _ => g i)
      (vpos + 1 + (j : ℤ)) = g j := by
  simpa using vecMap_at (Function.update W vpos 1) (vpos + 1) 1 cnt
    (fun i _ => g i) one_ne_zero j hj

theorem writeVec_val_succ {W : ℤ → K} {vpos : ℤ} {cnt : ℕ} {g h : ℕ → K}
    (j : ℕ) (hj : j < cnt) :
    vecMap (vecMap (Function.update W vpos 1) (vpos + 1) 1 cnt (fun i _ => g i))
      (vpos + 1) 1 cnt (fun i _ => h i) (vpos + 1 + (j : ℤ)) = h j := by
  simpa using vecMap_at _ (vpos + 1) 1 cnt (fun i _ => h i) one_ne_zero j hj

theorem writeVec_val_zero {W : ℤ → K} {vpos : ℤ} {cnt : ℕ} {g h : ℕ → K} :
    vecMap (vecMap (Function.update W vpos 1) (vpos + 1) 1 cnt (fun i _ => g i))
      (vpos + 1) 1 cnt (fun i _ => h i) vpos = 1 := by
  rw [vecMap_frame (fun k hk => by omega), vecMap_frame (fun k hk => by omega),
    Function.update_same]

/-- C9: for every call of `coreblas_zlarfb_gemm` with `M > 0`, `N > 0`,
`K > 0` and either `direct = CoreBlasBackward` or `storev = CoreBlasRowwise`,
the function returns `CoreBlasErrorNotSupported` and leaves the matrix `C`
and the workspace `WORK` completely unchanged. -/
theorem c9_larfb_gemm_not_supported (conjK : K → K)
    (side trans direct storev : CoreblasEnum) (M N Kk : ℤ) (V : ℤ → K)
    (LDV : ℤ) (T : ℤ → K) (LDT LDC LDWORK : ℤ) (S : LState K)
    (hM : 0 < M) (hN : 0 < N) (hK : 0 < Kk)
    (h : direct = CoreblasEnum.Backward ∨ storev = CoreblasEnum.Rowwise) :
    coreblas_zlarfb_gemm conjK side trans direct storev M N Kk V LDV T LDT LDC
      LDWORK S = (CoreBlasErrorNotSupported, S) := by
  simp only [coreblas_zlarfb_gemm]
  rw [if_neg (by omega : ¬(M = 0 ∨ N = 0 ∨ Kk = 0))]
  rcases h with h | h
  · subst h
    by_cases hs : storev = CoreblasEnum.Columnwise
    · simp [hs]
    · rw [if_neg hs, ite_self]
  · subst h
    rw [if_neg (by simp), ite_self]

theorem c9_witness :
    (0 : ℤ) < 1 ∧
    coreblas_zlarfb_gemm id CoreblasEnum.Left CoreblasEnum.NoTrans
      CoreblasEnum.Backward CoreblasEnum.Columnwise 1 1 1 (fun _ => (0 : ℚ)) 1
      (fun _ => 0) 1 1 1 zeroLS = (CoreBlasErrorNotSupported, zeroLS) :=
  ⟨by decide,
    c9_larfb_gemm_not_supported id CoreblasEnum.Left CoreblasEnum.NoTrans
      CoreblasEnum.Backward CoreblasEnum.Columnwise 1 1 1 (fun _ => (0 : ℚ)) 1
      (fun _ => 0) 1 1 1 zeroLS (by decide) (by decide) (by decide)
      (Or.inl rfl)⟩

/-- C10: for every `coreblas_ztsmqr` call whose arguments pass validation and
where any of `m1`, `n1`, `m2`, `n2`, `k`, `ib` equals zero, the function
returns `CoreBlasSuccess` and leaves `A1`, `A2` and the workspace
unchanged. -/
theorem c10_ztsmqr_quick_return
    (parfb : CoreblasEnum → CoreblasEnum → ℤ → ℤ → ℤ → ℤ → ℤ → ℤ → ℤ → ℤ →
      TSState K → TSState K)
    (side trans : CoreblasEnum) (m1 n1 m2 n2 k ib : ℤ)
    (lda1 lda2 ldv ldt ldwork : ℤ) (S : TSState K)
    (hside : side = CoreblasEnum.Left ∨ side = CoreblasEnum.Right)
    (htrans : trans = CoreblasEnum.NoTrans ∨ trans = CoreblasEnum.ConjTrans)
    (hm1 : 0 ≤ m1) (hn1 : 0 ≤ n1)
    (hm2 : 0 ≤ m2 ∧ ¬(m2 ≠ m1 ∧ side = CoreblasEnum.Right))
    (hn2 : 0 ≤ n2 ∧ ¬(n2 ≠ n1 ∧ side = CoreblasEnum.Left))
    (hk : 0 ≤ k ∧ ¬(side = CoreblasEnum.Left ∧ k > m1) ∧
      ¬(side = CoreblasEnum.Right ∧ k > n1))
    (hib : 0 ≤ ib)
    (hlda1 : max 1 m1 ≤ lda1) (hlda2 : max 1 m2 ≤ lda2)
    (hldv : max 1 (if side = CoreblasEnum.Left then m2 else n2) ≤ ldv)
    (hldt : max 1 ib ≤ ldt)
    (hldwork : max 1 (if side = CoreblasEnum.Left then ib else m1) ≤ ldwork)
    (hzero : m1 = 0 ∨ n1 = 0 ∨ m2 = 0 ∨ n2 = 0 ∨ k = 0 ∨ ib = 0) :
    coreblas_ztsmqr parfb side trans m1 n1 m2 n2 k ib false lda1 false lda2
      false ldv false ldt false ldwork S = (CoreBlasSuccess, S) := by
  unfold coreblas_ztsmqr
  rw [if_neg (not_not_intro hside), if_neg (not_not_intro htrans),
    if_neg (by omega), if_neg (by omega),
    if_neg (fun h => h.elim (fun h1 => by omega) hm2.2),
    if_neg (fun h => h.elim (fun h1 => by omega) hn2.2),
    if_neg (fun h => h.elim (fun h1 => by omega)
      (fun h2 => h2.elim hk.2.1 hk.2.2)),
    if_neg (by omega), if_neg (by simp), if_neg (by omega),
    if_neg (by simp), if_neg (by omega), if_neg (by simp),
    if_neg (by omega), if_neg (by simp), if_neg (by omega),
    if_neg (by simp), if_neg (by omega), if_pos hzero]

theorem c10_witness :
    ((0 : ℤ) ≤ 1 ∧ (1 : ℤ) = 0 ∨ (0 : ℤ) = 0) ∧
    coreblas_ztsmqr parfbId CoreblasEnum.Left CoreblasEnum.NoTrans 1 0 1 0 1 1
      false 1 false 1 false 1 false 1 false 1 zeroTS =
      (CoreBlasSuccess, zeroTS) :=
  ⟨Or.inr rfl,
    c10_ztsmqr_quick_return parfbId CoreblasEnum.Left CoreblasEnum.NoTrans
      1 0 1 0 1 1 1 1 1 1 1 zeroTS (Or.inl rfl) (Or.inl rfl) (by decide)
      (by decide) (by decide) (by decide) (by decide) (by decide) (by decide)
      (by decide) (by decide) (by decide) (by decide)
      (Or.inr (Or.inl rfl))⟩

/-- C5: in `coreblas_zgbtype2cb` the two work phases are independently
guarded by the next-block length `len = J2 - J1 + 1`: if `len ≤ 0` the call
changes nothing at all (`A`, `VQ`, `TAUQ`, `VP`, `TAUP` all unchanged); if
`len = 1` only the pending reflector application (phase 1) is performed and
the reflector store is not written; both statements hold for either
`uplo`. -/
theorem c5_type2_guarded_phases (P : Prims K) (uplo : CoreblasEnum)
    (n nb lda st ed sweep Vblksiz wantz : ℤ) (S : BState K) :
    (min (ed + nb) (n - 1) - (ed + 1) + 1 ≤ 0 →
      coreblas_zgbtype2cb P uplo n nb lda st ed sweep Vblksiz wantz S = S) ∧
    (min (ed + nb) (n - 1) - (ed + 1) + 1 = 1 →
      coreblas_zgbtype2cb P uplo n nb lda st ed sweep Vblksiz wantz S =
        (if uplo = CoreblasEnum.Upper then
          type2UpperP1 P n nb lda st ed sweep Vblksiz wantz S
        else type2LowerP1 P n nb lda st ed sweep Vblksiz wantz S) ∧
      (coreblas_zgbtype2cb P uplo n nb lda st ed sweep Vblksiz wantz S).VQ =
        S.VQ ∧
      (coreblas_zgbtype2cb P uplo n nb lda st ed sweep Vblksiz wantz S).TAUQ =
        S.TAUQ ∧
      (coreblas_zgbtype2cb P uplo n nb lda st ed sweep Vblksiz wantz S).VP =
        S.VP ∧
      (coreblas_zgbtype2cb P uplo n nb lda st ed sweep Vblksiz wantz S).TAUP =
        S.TAUP) := by
  constructor
  · intro h
    simp only [coreblas_zgbtype2cb]
    split_ifs <;> first | rfl | omega
  · intro h
    have hk : coreblas_zgbtype2cb P uplo n nb lda st ed sweep Vblksiz wantz S =
        if uplo = CoreblasEnum.Upper then
          type2UpperP1 P n nb lda st ed sweep Vblksiz wantz S
        else type2LowerP1 P n nb lda st ed sweep Vblksiz wantz S := by
      simp only [coreblas_zgbtype2cb]
      by_cases hu : uplo = CoreblasEnum.Upper
      · rw [if_pos hu, if_neg (by omega), if_pos (by omega), if_pos hu]
      · rw [if_neg hu, if_neg (by omega), if_pos (by omega), if_neg hu]
    refine ⟨hk, ?_, ?_, ?_, ?_⟩ <;> rw [hk] <;> split_ifs
    · exact type2UpperP1_stores.1
    · exact type2LowerP1_stores.1
    · exact type2UpperP1_stores.2.1
    · exact type2LowerP1_stores.2.1
    · exact type2UpperP1_stores.2.2.1
    · exact type2LowerP1_stores.2.2.1
    · exact type2UpperP1_stores.2.2.2
    · exact type2LowerP1_stores.2.2.2

theorem c5_witness :
    (min ((0 : ℤ) + 1) (1 - 1) - (0 + 1) + 1 ≤ 0 ∧
      coreblas_zgbtype2cb rprims CoreblasEnum.Lower 1 1 4 1 0 0 0 0 zeroBS =
        zeroBS) ∧
    (min ((0 : ℤ) + 1) (2 - 1) - (0 + 1) + 1 = 1 ∧
      coreblas_zgbtype2cb rprims CoreblasEnum.Lower 2 1 4 0 0 0 0 0 zeroBS =
        (if CoreblasEnum.Lower = CoreblasEnum.Upper then
          type2UpperP1 rprims 2 1 4 0 0 0 0 0 zeroBS
        else type2LowerP1 rprims 2 1 4 0 0 0 0 0 zeroBS)) :=
  ⟨⟨by decide,
    (c5_type2_guarded_phases rprims CoreblasEnum.Lower 1 1 4 1 0 0 0 0
      zeroBS).1 (by decide)⟩,
   ⟨by decide,
    ((c5_type2_guarded_phases rprims CoreblasEnum.Lower 2 1 4 0 0 0 0 0
      zeroBS).2 (by decide)).1⟩⟩

/-- C7: the type-1 and type-2 bulge-chasing kernels perform no runtime
argument validation and report no error: in this embedding they are total
state transformers (mirroring the `void` C functions, which have no error
branch), and — for arbitrary arguments, in or out of range — their only
effect is mutation of the band buffer inside the kernel's window and of the
reflector store slots addressed through `vtPos`. -/
theorem c7_kernels_unvalidated_frame (P : Prims K) (uplo : CoreblasEnum)
    (n nb lda st ed sweep Vblksiz wantz : ℤ) (S : BState K) :
    (∀ off : ℤ,
      (∀ c e : ℤ, st - 1 ≤ c → c ≤ max ed st → -(max (ed - st + 1) 1) ≤ e →
        e ≤ max (ed - st + 1) 1 → off ≠ bandOffset uplo nb lda (c + e) c) →
      (coreblas_zgbtype1cb P uplo n nb lda st ed sweep Vblksiz wantz S).A off =
        S.A off) ∧
    (∀ i : ℤ, i ≠ (vtPos P n nb Vblksiz sweep st wantz).2 →
      (coreblas_zgbtype1cb P uplo n nb lda st ed sweep Vblksiz wantz S).TAUQ i =
        S.TAUQ i ∧
      (coreblas_zgbtype1cb P uplo n nb lda st ed sweep Vblksiz wantz S).TAUP i =
        S.TAUP i) ∧
    (∀ i : ℤ, (i < (vtPos P n nb Vblksiz sweep st wantz).1 ∨
        (vtPos P n nb Vblksiz sweep st wantz).1 + max (ed - st + 1) 1 ≤ i) →
      (coreblas_zgbtype1cb P uplo n nb lda st ed sweep Vblksiz wantz S).VQ i =
        S.VQ i ∧
      (coreblas_zgbtype1cb P uplo n nb lda st ed sweep Vblksiz wantz S).VP i =
        S.VP i) ∧
    (∀ off : ℤ,
      (∀ r c : ℤ, type2Window uplo n nb st ed r c →
        off ≠ bandOffset uplo nb lda r c) →
      (coreblas_zgbtype2cb P uplo n nb lda st ed sweep Vblksiz wantz S).A off =
        S.A off) ∧
    (∀ i : ℤ, i ≠ (vtPos P n nb Vblksiz sweep (ed + 1) wantz).2 →
      (coreblas_zgbtype2cb P uplo n nb lda st ed sweep Vblksiz wantz S).TAUQ i =
        S.TAUQ i ∧
      (coreblas_zgbtype2cb P uplo n nb lda st ed sweep Vblksiz wantz S).TAUP i =
        S.TAUP i) ∧
    (∀ i : ℤ, (i < (vtPos P n nb Vblksiz sweep (ed + 1) wantz).1 ∨
        (vtPos P n nb Vblksiz sweep (ed + 1) wantz).1 +
          max (min (ed + nb) (n - 1) - ed) 1 ≤ i) →
      (coreblas_zgbtype2cb P uplo n nb lda st ed sweep Vblksiz wantz S).VQ i =
        S.VQ i ∧
      (coreblas_zgbtype2cb P uplo n nb lda st ed sweep Vblksiz wantz S).VP i =
        S.VP i) := by
  by_cases hu : uplo = CoreblasEnum.Upper
  · refine ⟨?_, ?_, ?_, ?_, ?_, ?_⟩
    · intro off h
      simp only [coreblas_zgbtype1cb, if_pos hu]
      refine type1Upper_A_frame (fun c e h1 h2 h3 h4 => ?_)
      have h5 := h c e h1 h2 h3 h4
      rwa [bandOffset, if_pos hu] at h5
    · intro i h
      simp only [coreblas_zgbtype1cb, if_pos hu]
      exact type1Upper_TAU_frame h
    · intro i h
      simp only [coreblas_zgbtype1cb, if_pos hu]
      exact type1Upper_V_frame h
    · intro off h
      have h' : ∀ r c : ℤ, st ≤ r → r ≤ max ed st → ed + 1 ≤ c →
          c ≤ max (min (ed + nb) (n - 1)) (ed + 1) → off ≠ AUi nb lda r c := by
        intro r c h1 h2 h3 h4
        have h5 := h r c (by rw [type2Window, if_pos hu]; exact ⟨h1, h2, h3, h4⟩)
        rwa [bandOffset, if_pos hu] at h5
      simp only [coreblas_zgbtype2cb, if_pos hu]
      by_cases h2 : 1 < min (ed + nb) (n - 1) - (ed + 1) + 1
      · rw [if_pos h2]
        refine (type2UpperP2_A_frame h').trans ?_
        by_cases h1 : 0 < min (ed + nb) (n - 1) - (ed + 1) + 1
        · rw [if_pos h1]
          exact type2UpperP1_A_frame (fun r c g1 g2 g3 g4 =>
            h' r c g1 (by omega) g3 (by omega))
        · rw [if_neg h1]
      · rw [if_neg h2]
        by_cases h1 : 0 < min (ed + nb) (n - 1) - (ed + 1) + 1
        · rw [if_pos h1]
          exact type2UpperP1_A_frame (fun r c g1 g2 g3 g4 =>
            h' r c g1 (by omega) g3 (by omega))
        · rw [if_neg h1]
    · intro i h
      simp only [coreblas_zgbtype2cb, if_pos hu]
      by_cases h2 : 1 < min (ed + nb) (n - 1) - (ed + 1) + 1
      · rw [if_pos h2]
        refine ⟨(type2UpperP2_TAU_frame h).1.trans ?_,
          (type2UpperP2_TAU_frame h).2.trans ?_⟩ <;>
          by_cases h1 : 0 < min (ed + nb) (n - 1) - (ed + 1) + 1
        · rw [if_pos h1]; exact congrFun type2UpperP1_stores.2.1 i
        · rw [if_neg h1]
        · rw [if_pos h1]; exact congrFun type2UpperP1_stores.2.2.2 i
        · rw [if_neg h1]
      · rw [if_neg h2]
        by_cases h1 : 0 < min (ed + nb) (n - 1) - (ed + 1) + 1
        · rw [if_pos h1]
          exact ⟨congrFun type2UpperP1_stores.2.1 i,
            congrFun type2UpperP1_stores.2.2.2 i⟩
        · rw [if_neg h1]; exact ⟨rfl, rfl⟩
    · intro i h
      simp only [coreblas_zgbtype2cb, if_pos hu]
      by_cases h2 : 1 < min (ed + nb) (n - 1) - (ed + 1) + 1
      · rw [if_pos h2]
        refine ⟨(type2UpperP2_V_frame h).1.trans ?_,
          (type2UpperP2_V_frame h).2.trans ?_⟩ <;>
          by_cases h1 : 0 < min (ed + nb) (n - 1) - (ed + 1) + 1
        · rw [if_pos h1]; exact congrFun type2UpperP1_stores.1 i
        · rw [if_neg h1]
        · rw [if_pos h1]; exact congrFun type2UpperP1_stores.2.2.1 i
        · rw [if_neg h1]
      · rw [if_neg h2]
        by_cases h1 : 0 < min (ed + nb) (n - 1) - (ed + 1) + 1
        · rw [if_pos h1]
          exact ⟨congrFun type2UpperP1_stores.1 i,
            congrFun type2UpperP1_stores.2.2.1 i⟩
        · rw [if_neg h1]; exact ⟨rfl, rfl⟩
  · refine ⟨?_, ?_, ?_, ?_, ?_, ?_⟩
    · intro off h
      simp only [coreblas_zgbtype1cb, if_neg hu]
      refine type1Lower_A_frame (fun c e h1 h2 h3 h4 => ?_)
      have h5 := h c e h1 h2 h3 h4
      rwa [bandOffset, if_neg hu] at h5
    · intro i h
      simp only [coreblas_zgbtype1cb, if_neg hu]
      exact type1Lower_TAU_frame h
    · intro i h
      simp only [coreblas_zgbtype1cb, if_neg hu]
      exact type1Lower_V_frame h
    · intro off h
      have h' : ∀ r c : ℤ, ed + 1 ≤ r →
          r ≤ max (min (ed + nb) (n - 1)) (ed + 1) → st ≤ c → c ≤ max ed st →
          off ≠ ALi nb lda r c := by
        intro r c h1 h2 h3 h4
        have h5 := h r c (by rw [type2Window, if_neg hu]; exact ⟨h1, h2, h3, h4⟩)
        rwa [bandOffset, if_neg hu] at h5
      simp only [coreblas_zgbtype2cb, if_neg hu]
      by_cases h2 : 1 < min (ed + nb) (n - 1) - (ed + 1) + 1
      · rw [if_pos h2]
        refine (type2LowerP2_A_frame h').trans ?_
        by_cases h1 : 0 < min (ed + nb) (n - 1) - (ed + 1) + 1
        · rw [if_pos h1]
          exact type2LowerP1_A_frame (fun r c g1 g2 g3 g4 =>
            h' r c g1 (by omega) g3 (by omega))
        · rw [if_neg h1]
      · rw [if_neg h2]
        by_cases h1 : 0 < min (ed + nb) (n - 1) - (ed + 1) + 1
        · rw [if_pos h1]
          exact type2LowerP1_A_frame (fun r c g1 g2 g3 g4 =>
            h' r c g1 (by omega) g3 (by omega))
        · rw [if_neg h1]
    · intro i h
      simp only [coreblas_zgbtype2cb, if_neg hu]
      by_cases h2 : 1 < min (ed + nb) (n - 1) - (ed + 1) + 1
      · rw [if_pos h2]
        refine ⟨(type2LowerP2_TAU_frame h).1.trans ?_,
          (type2LowerP2_TAU_frame h).2.trans ?_⟩ <;>
          by_cases h1 : 0 < min (ed + nb) (n - 1) - (ed + 1) + 1
        · rw [if_pos h1]; exact congrFun type2LowerP1_stores.2.1 i
        · rw [if_neg h1]
        · rw [if_pos h1]; exact congrFun type2LowerP1_stores.2.2.2 i
        · rw [if_neg h1]
      · rw [if_neg h2]
        by_cases h1 : 0 < min (ed + nb) (n - 1) - (ed + 1) + 1
        · rw [if_pos h1]
          exact ⟨congrFun type2LowerP1_stores.2.1 i,
            congrFun type2LowerP1_stores.2.2.2 i⟩
        · rw [if_neg h1]; exact ⟨rfl, rfl⟩
    · intro i h
      simp only [coreblas_zgbtype2cb, if_neg hu]
      by_cases h2 : 1 < min (ed + nb) (n - 1) - (ed + 1) + 1
      · rw [if_pos h2]
        refine ⟨(type2LowerP2_V_frame h).1.trans ?_,
          (type2LowerP2_V_frame h).2.trans ?_⟩ <;>
          by_cases h1 : 0 < min (ed + nb) (n - 1) - (ed + 1) + 1
        · rw [if_pos h1]; exact congrFun type2LowerP1_stores.1 i
        · rw [if_neg h1]
        · rw [if_pos h1]; exact congrFun type2LowerP1_stores.2.2.1 i
        · rw [if_neg h1]
      · rw [if_neg h2]
        by_cases h1 : 0 < min (ed + nb) (n - 1) - (ed + 1) + 1
        · rw [if_pos h1]
          exact ⟨congrFun type2LowerP1_stores.1 i,
            congrFun type2LowerP1_stores.2.2.1 i⟩
        · rw [if_neg h1]; exact ⟨rfl, rfl⟩

theorem c7_witness :
    (coreblas_zgbtype1cb rprims CoreblasEnum.Lower 4 2 7 1 2 0 0 0 exS).A 30 =
      exS.A 30 ∧
    (coreblas_zgbtype1cb rprims CoreblasEnum.Lower 4 2 7 1 2 0 0 0 exS).TAUQ 99 =
      exS.TAUQ 99 ∧
    (coreblas_zgbtype2cb rprims CoreblasEnum.Lower 4 2 7 1 2 0 0 0 exS).A 30 =
      exS.A 30 :=
  ⟨(c7_kernels_unvalidated_frame rprims CoreblasEnum.Lower 4 2 7 1 2 0 0 0
      exS).1 30
      (by
        intro c e h1 h2 h3 h4 h5
        simp only [bandOffset, ALi] at h5
        rw [if_neg (by decide)] at h5
        omega),
   ((c7_kernels_unvalidated_frame rprims CoreblasEnum.Lower 4 2 7 1 2 0 0 0
      exS).2.1 99 (by decide)).1,
   (c7_kernels_unvalidated_frame rprims CoreblasEnum.Lower 4 2 7 1 2 0 0 0
      exS).2.2.2.1 30
      (by
        intro r c hrc h5
        simp only [type2Window] at hrc
        rw [if_neg (by decide)] at hrc
        simp only [bandOffset, ALi] at h5
        rw [if_neg (by decide)] at h5
        omega)⟩

/-- C3: for every upper-case type-1 call, `coreblas_zgbtype1cb` performs
exactly the five-step sequence the spec describes: copy the off-band row
entries (conjugated) into `VP` and zero them in `A`; generate the Householder
reflector producing `TAUP` and overwriting the pivot at `(st-1, st)`; apply
it from the right to the `len`-by-`len` diagonal block; eliminate the
created bulge column into `VQ`/`TAUQ` the same way; and apply the second
reflector from the left to the `len`-by-`(len-1)` sub-block
`A(st:ed, st+1:ed)`.  The right-hand side is built from the spec's wording,
step by step. -/
theorem c3_type1_upper_sequence (P : Prims K)
    (n nb lda st ed sweep Vblksiz wantz : ℤ) (S : BState K) :
    coreblas_zgbtype1cb P CoreblasEnum.Upper n nb lda st ed sweep Vblksiz
      wantz S =
    t1uSpecStep5 P n nb lda st ed sweep Vblksiz wantz
      (t1uSpecStep4 P n nb lda st ed sweep Vblksiz wantz
        (t1uSpecStep3 P n nb lda st ed sweep Vblksiz wantz
          (t1uSpecStep2 P n nb lda st ed sweep Vblksiz wantz
            (t1uSpecStep1 P n nb lda st ed sweep Vblksiz wantz S)))) := rfl

/-- C4: when the next block `[J1, J2]` (`J1 = ed+1`,
`J2 = min(ed+nb, n-1)`) is non-empty, `coreblas_zgbtype2cb` first applies
the reflector stored at the slot addressed by `(sweep, st)` — from the left
for upper uplo, from the right for lower uplo — onto exactly the
`(ed-st+1) x (J2-J1+1)` rectangle `[st,ed] x [J1,J2]` of `A`, before
generating any new reflector: the kernel is the pending-apply phase followed
by the guarded generation phase; the pending-apply phase writes only inside
that rectangle and writes nothing but `A`; and its result depends on the
reflector store only through the `(sweep, st)` slots. -/
theorem c4_type2_pending_apply_first (P : Prims K) (uplo : CoreblasEnum)
    (n nb lda st ed sweep Vblksiz wantz : ℤ) (S : BState K)
    (hlen : 0 < min (ed + nb) (n - 1) - (ed + 1) + 1) :
    (coreblas_zgbtype2cb P uplo n nb lda st ed sweep Vblksiz wantz S =
      (if uplo = CoreblasEnum.Upper then
        (if 1 < min (ed + nb) (n - 1) - (ed + 1) + 1 then
          type2UpperP2 P n nb lda st ed sweep Vblksiz wantz
            (type2UpperP1 P n nb lda st ed sweep Vblksiz wantz S)
        else type2UpperP1 P n nb lda st ed sweep Vblksiz wantz S)
      else
        (if 1 < min (ed + nb) (n - 1) - (ed + 1) + 1 then
          type2LowerP2 P n nb lda st ed sweep Vblksiz wantz
            (type2LowerP1 P n nb lda st ed sweep Vblksiz wantz S)
        else type2LowerP1 P n nb lda st ed sweep Vblksiz wantz S))) ∧
    (∀ off : ℤ,
      (∀ r c : ℤ, type2Rect uplo n nb st ed r c →
        off ≠ bandOffset uplo nb lda r c) →
      (if uplo = CoreblasEnum.Upper then
        type2UpperP1 P n nb lda st ed sweep Vblksiz wantz S
      else type2LowerP1 P n nb lda st ed sweep Vblksiz wantz S).A off =
        S.A off) ∧
    ((if uplo = CoreblasEnum.Upper then
        type2UpperP1 P n nb lda st ed sweep Vblksiz wantz S
      else type2LowerP1 P n nb lda st ed sweep Vblksiz wantz S).VQ = S.VQ ∧
     (if uplo = CoreblasEnum.Upper then
        type2UpperP1 P n nb lda st ed sweep Vblksiz wantz S
      else type2LowerP1 P n nb lda st ed sweep Vblksiz wantz S).TAUQ = S.TAUQ ∧
     (if uplo = CoreblasEnum.Upper then
        type2UpperP1 P n nb lda st ed sweep Vblksiz wantz S
      else type2LowerP1 P n nb lda st ed sweep Vblksiz wantz S).VP = S.VP ∧
     (if uplo = CoreblasEnum.Upper then
        type2UpperP1 P n nb lda st ed sweep Vblksiz wantz S
      else type2LowerP1 P n nb lda st ed sweep Vblksiz wantz S).TAUP = S.TAUP) ∧
    (∀ T : BState K, T.A = S.A →
      (∀ k : ℕ, (k : ℤ) < ed - st + 1 →
        T.VQ ((vtPos P n nb Vblksiz sweep st wantz).1 + k) =
          S.VQ ((vtPos P n nb Vblksiz sweep st wantz).1 + k) ∧
        T.VP ((vtPos P n nb Vblksiz sweep st wantz).1 + k) =
          S.VP ((vtPos P n nb Vblksiz sweep st wantz).1 + k)) →
      T.TAUQ (vtPos P n nb Vblksiz sweep st wantz).2 =
        S.TAUQ (vtPos P n nb Vblksiz sweep st wantz).2 →
      T.TAUP (vtPos P n nb Vblksiz sweep st wantz).2 =
        S.TAUP (vtPos P n nb Vblksiz sweep st wantz).2 →
      (if uplo = CoreblasEnum.Upper then
        type2UpperP1 P n nb lda st ed sweep Vblksiz wantz T
      else type2LowerP1 P n nb lda st ed sweep Vblksiz wantz T).A =
      (if uplo = CoreblasEnum.Upper then
        type2UpperP1 P n nb lda st ed sweep Vblksiz wantz S
      else type2LowerP1 P n nb lda st ed sweep Vblksiz wantz S).A) := by
  by_cases hu : uplo = CoreblasEnum.Upper
  · refine ⟨?_, ?_, ?_, ?_⟩
    · simp only [coreblas_zgbtype2cb]
      rw [if_pos hu, if_pos hu, if_pos hlen]
    · intro off h
      rw [if_pos hu]
      refine type2UpperP1_A_frame (fun r c h1 h2 h3 h4 => ?_)
      have h5 := h r c (by
        simp only [type2Rect]
        rw [if_pos hu]
        exact ⟨h1, h2, h3, h4⟩)
      rwa [bandOffset, if_pos hu] at h5
    · rw [if_pos hu]
      exact type2UpperP1_stores
    · intro T hA hV hTQ hTP
      rw [if_pos hu, if_pos hu]
      simp only [type2UpperP1]
      rw [hA, hTQ]
      exact larfxL_congr (fun k hk => (hV k (by omega)).1)
  · refine ⟨?_, ?_, ?_, ?_⟩
    · simp only [coreblas_zgbtype2cb]
      rw [if_neg hu, if_neg hu, if_pos hlen]
    · intro off h
      rw [if_neg hu]
      refine type2LowerP1_A_frame (fun r c h1 h2 h3 h4 => ?_)
      have h5 := h r c (by
        simp only [type2Rect]
        rw [if_neg hu]
        exact ⟨h1, h2, h3, h4⟩)
      rwa [bandOffset, if_neg hu] at h5
    · rw [if_neg hu]
      exact type2LowerP1_stores
    · intro T hA hV hTQ hTP
      rw [if_neg hu, if_neg hu]
      simp only [type2LowerP1]
      rw [hA, hTP]
      exact larfxR_congr (fun k hk => (hV k (by omega)).2)

theorem ratSqrt_25 : ratSqrt 25 = 5 := by
  have h1 : natSqrtExact (25 : ℚ).num.toNat = some 5 := by decide
  have h2 : natSqrtExact (25 : ℚ).den = some 1 := by decide
  rw [ratSqrt, h1, h2]
  norm_num

/-- The hand computation of the concrete scenario: the reflector generator on
pivot `3` and tail `[4]` returns `beta = -5`, `v = [1/2]`, `tau = 8/5`. -/
theorem dlarfg_34 : dlarfg 2 3 [4] = (-5, [1/2], 8/5) := by
  rw [dlarfg]
  norm_num [ratSqrt_25]

set_option maxHeartbeats 4000000 in
/-- C6: for the concrete input `n = 4`, `nb = 2` (`lda = 7`), real double
precision, lower uplo, `wantz = 0`, sweep 0 with `st = 1`, `ed = 2`, applied
to the fixed banded matrix `exA`, the type-1 call produces
`TAUQ[taupos] = TAUP[taupos] = 8/5` at `taupos = ((sweep+1) mod 2)*n + st = 5`
— the hand-computed Householder scalars, exactly, hence within `1e-12` — and
afterwards the band-buffer entries at logical positions `(2,0)` and `(3,0)`
are exactly zero. -/
theorem c6_concrete_scenario :
    (coreblas_zgbtype1cb rprims CoreblasEnum.Lower 4 2 7 1 2 0 0 0 exS).TAUQ 5 =
      8 / 5 ∧
    (coreblas_zgbtype1cb rprims CoreblasEnum.Lower 4 2 7 1 2 0 0 0 exS).TAUP 5 =
      8 / 5 ∧
    |(coreblas_zgbtype1cb rprims CoreblasEnum.Lower 4 2 7 1 2 0 0 0 exS).TAUQ 5 -
      8 / 5| ≤ 1 / 10 ^ 12 ∧
    |(coreblas_zgbtype1cb rprims CoreblasEnum.Lower 4 2 7 1 2 0 0 0 exS).TAUP 5 -
      8 / 5| ≤ 1 / 10 ^ 12 ∧
    (coreblas_zgbtype1cb rprims CoreblasEnum.Lower 4 2 7 1 2 0 0 0 exS).A
      (ALi 2 7 2 0) = 0 ∧
    (coreblas_zgbtype1cb rprims CoreblasEnum.Lower 4 2 7 1 2 0 0 0 exS).A
      (ALi 2 7 3 0) = 0 := by
  have h :
      (coreblas_zgbtype1cb rprims CoreblasEnum.Lower 4 2 7 1 2 0 0 0
        exS).TAUQ 5 = 8 / 5 ∧
      (coreblas_zgbtype1cb rprims CoreblasEnum.Lower 4 2 7 1 2 0 0 0
        exS).TAUP 5 = 8 / 5 ∧
      (coreblas_zgbtype1cb rprims CoreblasEnum.Lower 4 2 7 1 2 0 0 0 exS).A
        (ALi 2 7 2 0) = 0 ∧
      (coreblas_zgbtype1cb rprims CoreblasEnum.Lower 4 2 7 1 2 0 0 0 exS).A
        (ALi 2 7 3 0) = 0 := by
    simp only [coreblas_zgbtype1cb]
    rw [if_neg (show ¬(CoreblasEnum.Lower = CoreblasEnum.Upper) by decide)]
    norm_num [type1Lower, vtPos, rprims, exS, exA, ALi,
      vecMap, larfxL, larfxR, larfxLstep, larfxRstep, dlarfg_34,
      List.range_succ, Finset.sum_range_succ, Finset.sum_range_zero,
      Function.update_apply, show (2 : ℤ).toNat = 2 from rfl]
  refine ⟨h.1, h.2.1, ?_, ?_, h.2.2.1, h.2.2.2⟩
  · rw [h.1]; norm_num
  · rw [h.2.1]; norm_num

theorem c4_witness :
    (0 : ℤ) < min (2 + 2) (4 - 1) - (2 + 1) + 1 ∧
    coreblas_zgbtype2cb rprims CoreblasEnum.Lower 4 2 7 1 2 0 0 0 exS =
      (if CoreblasEnum.Lower = CoreblasEnum.Upper then
        (if 1 < min ((2 : ℤ) + 2) (4 - 1) - (2 + 1) + 1 then
          type2UpperP2 rprims 4 2 7 1 2 0 0 0
            (type2UpperP1 rprims 4 2 7 1 2 0 0 0 exS)
        else type2UpperP1 rprims 4 2 7 1 2 0 0 0 exS)
      else
        (if 1 < min ((2 : ℤ) + 2) (4 - 1) - (2 + 1) + 1 then
          type2LowerP2 rprims 4 2 7 1 2 0 0 0
            (type2LowerP1 rprims 4 2 7 1 2 0 0 0 exS)
        else type2LowerP1 rprims 4 2 7 1 2 0 0 0 exS)) :=
  ⟨by decide,
    (c4_type2_pending_apply_first rprims CoreblasEnum.Lower 4 2 7 1 2 0 0 0
      exS (by decide)).1⟩



/-- Every element of the elementwise coercion of a list of naturals to
integers is the coercion of one of its elements. -/
theorem mem_coe_list {l : List ℕ} {a : ℤ} (ha : a ∈ (l : List ℤ)) :
    ∃ x ∈ l, a = (x : ℤ) := by
  induction l with
  | nil => exact absurd (show a ∈ ([] : List ℤ) from ha) (by simp)
  | cons x xs ih =>
      have h' : a = (x : ℤ) ∨ a ∈ (xs : List ℤ) := by
        simpa using (show a ∈ (x : ℤ) :: (xs : List ℤ) from ha)
      rcases h' with rfl | h'
      · exact ⟨x, List.mem_cons_self x xs, rfl⟩
      · obtain ⟨y, hy, rfl⟩ := ih h'
        exact ⟨y, List.mem_cons_of_mem x hy, rfl⟩

theorem mem_coe_range {cnt : ℕ} {a : ℤ}
    (ha : a ∈ ((List.range cnt : List ℕ) : List ℤ)) :
    ∃ j : ℕ, j < cnt ∧ a = j := by
  obtain ⟨x, hx, rfl⟩ := mem_coe_list ha
  exact ⟨x, List.mem_range.mp hx, rfl⟩

theorem t1r1_lower_eq (P : Prims K) (nb lda st ed : ℤ) (W Aa : ℤ → K)
    (vp1 : ℤ) :
    P.larfg (ed - st + 1).toNat
      (vecMap Aa (ALi nb lda (st + 1) (st - 1)) 1 ((ed - st + 1).toNat - 1)
        (fun _ _ => 0) (ALi nb lda st (st - 1)))
      ((List.range ((ed - st + 1).toNat - 1)).map (fun i =>
        vecMap (Function.update W vp1 1) (vp1 + 1) 1 ((ed - st + 1).toNat - 1)
          (fun i _ => Aa (ALi nb lda (st + 1) (st - 1) + (i : ℤ)))
          (vp1 + 1 + (i : ℤ)))) =
    t1r1 P CoreblasEnum.Lower nb lda st ed Aa := by
  rw [t1r1, if_neg (by decide)]
  refine congrArg (P.larfg _ _) ?_
  refine List.map_congr_left (fun a ha => ?_)
  obtain ⟨j, hj, rfl⟩ := mem_coe_range ha
  exact copyVec_val j hj

theorem t1A3_lower_eq (P : Prims K) (nb lda st ed : ℤ) (W Aa : ℤ → K)
    (vp1 : ℤ) :
    larfxL P.conj (ed - st + 1).toNat (ed - st + 1).toNat
      (fun i =>
        vecMap
          (vecMap (Function.update W vp1 1) (vp1 + 1) 1
            ((ed - st + 1).toNat - 1)
            (fun i _ => Aa (ALi nb lda (st + 1) (st - 1) + (i : ℤ))))
          (vp1 + 1) 1 ((ed - st + 1).toNat - 1)
          (fun i _ => (t1r1 P CoreblasEnum.Lower nb lda st ed Aa).2.1.getD i 0)
          (vp1 + (i : ℤ)))
      (P.conj (t1r1 P CoreblasEnum.Lower nb lda st ed Aa).2.2)
      (Function.update
        (vecMap Aa (ALi nb lda (st + 1) (st - 1)) 1 ((ed - st + 1).toNat - 1)
          (fun _ _ => 0))
        (ALi nb lda st (st - 1)) (t1r1 P CoreblasEnum.Lower nb lda st ed Aa).1)
      (ALi nb lda st st) (lda - 1) =
    t1mid P CoreblasEnum.Lower nb lda st ed Aa := by
  rw [t1mid, if_neg (by decide)]
  refine larfxL_congr (fun k hk => ?_)
  match k with
  | 0 => simpa using writeVec_val_zero
  | (j + 1) =>
      have hc : vp1 + ((j + 1 : ℕ) : ℤ) = vp1 + 1 + (j : ℤ) := by push_cast; ring
      rw [hc, writeVec_val_succ j (by omega)]
      simp

theorem t1r2_lower_eq (P : Prims K) (nb lda st ed : ℤ) (W Aa : ℤ → K)
    (vp1 : ℤ) :
    P.larfg (ed - st + 1).toNat
      (P.conj (vecMap (t1mid P CoreblasEnum.Lower nb lda st ed Aa)
        (ALi nb lda st (st + 1)) (lda - 1) ((ed - st + 1).toNat - 1)
        (fun _ _ => 0) (ALi nb lda st st)))
      ((List.range ((ed - st + 1).toNat - 1)).map (fun i =>
        vecMap (Function.update W vp1 1) (vp1 + 1) 1 ((ed - st + 1).toNat - 1)
          (fun i _ => P.conj (t1mid P CoreblasEnum.Lower nb lda st ed Aa
            (ALi nb lda st (st + 1 + (i : ℤ)))))
          (vp1 + 1 + (i : ℤ)))) =
    t1r2 P CoreblasEnum.Lower nb lda st ed Aa := by
  simp only [t1r2]
  rw [if_neg (by decide)]
  refine congrArg (P.larfg _ _) ?_
  refine List.map_congr_left (fun a ha => ?_)
  obtain ⟨j, hj, rfl⟩ := mem_coe_range ha
  exact copyVec_val j hj

theorem type1Lower_slot_vals (P : Prims K)
    (n nb lda st ed sweep Vblksiz wantz : ℤ) (S : BState K) :
    (type1Lower P n nb lda st ed sweep Vblksiz wantz S).VQ
      (vtPos P n nb Vblksiz sweep st wantz).1 = 1 ∧
    (∀ k : ℕ, k < (ed - st + 1).toNat - 1 →
      (type1Lower P n nb lda st ed sweep Vblksiz wantz S).VQ
        ((vtPos P n nb Vblksiz sweep st wantz).1 + 1 + (k : ℤ)) =
      (t1r1 P CoreblasEnum.Lower nb lda st ed S.A).2.1.getD k 0) ∧
    (type1Lower P n nb lda st ed sweep Vblksiz wantz S).TAUQ
      (vtPos P n nb Vblksiz sweep st wantz).2 =
      (t1r1 P CoreblasEnum.Lower nb lda st ed S.A).2.2 ∧
    (type1Lower P n nb lda st ed sweep Vblksiz wantz S).VP
      (vtPos P n nb Vblksiz sweep st wantz).1 = 1 ∧
    (∀ k : ℕ, k < (ed - st + 1).toNat - 1 →
      (type1Lower P n nb lda st ed sweep Vblksiz wantz S).VP
        ((vtPos P n nb Vblksiz sweep st wantz).1 + 1 + (k : ℤ)) =
      (t1r2 P CoreblasEnum.Lower nb lda st ed S.A).2.1.getD k 0) ∧
    (type1Lower P n nb lda st ed sweep Vblksiz wantz S).TAUP
      (vtPos P n nb Vblksiz sweep st wantz).2 =
      (t1r2 P CoreblasEnum.Lower nb lda st ed S.A).2.2 := by
  refine ⟨?_, ?_, ?_, ?_, ?_, ?_⟩
  · simp only [type1Lower]
    exact writeVec_val_zero
  · intro k hk
    simp only [type1Lower]
    rw [writeVec_val_succ k hk, t1r1_lower_eq]
  · simp only [type1Lower]
    rw [Function.update_same, t1r1_lower_eq]
  · simp only [type1Lower]
    exact writeVec_val_zero
  · intro k hk
    simp only [type1Lower]
    rw [writeVec_val_succ k hk, t1r1_lower_eq, Function.update_same,
      t1A3_lower_eq, t1r2_lower_eq]
  · simp only [type1Lower]
    rw [Function.update_same, Function.update_same, t1r1_lower_eq,
      t1A3_lower_eq, t1r2_lower_eq]


theorem t1r1_upper_eq (P : Prims K) (nb lda st ed : ℤ) (W Aa : ℤ → K)
    (vp1 : ℤ) :
    P.larfg (ed - st + 1).toNat
      (P.conj (vecMap Aa (AUi nb lda (st - 1) (st + 1)) (lda - 1)
        ((ed - st + 1).toNat - 1) (fun _ _ => 0) (AUi nb lda (st - 1) st)))
      ((List.range ((ed - st + 1).toNat - 1)).map (fun i =>
        vecMap (Function.update W vp1 1) (vp1 + 1) 1 ((ed - st + 1).toNat - 1)
          (fun i _ => P.conj (Aa (AUi nb lda (st - 1) (st + 1 + (i : ℤ)))))
          (vp1 + 1 + (i : ℤ)))) =
    t1r1 P CoreblasEnum.Upper nb lda st ed Aa := by
  rw [t1r1, if_pos rfl]
  refine congrArg (P.larfg _ _) ?_
  refine List.map_congr_left (fun a ha => ?_)
  obtain ⟨j, hj, rfl⟩ := mem_coe_range ha
  exact copyVec_val j hj

theorem t1A3_upper_eq (P : Prims K) (nb lda st ed : ℤ) (W Aa : ℤ → K)
    (vp1 : ℤ) :
    larfxR P.conj (ed - st + 1).toNat (ed - st + 1).toNat
      (fun i =>
        vecMap
          (vecMap (Function.update W vp1 1) (vp1 + 1) 1
            ((ed - st + 1).toNat - 1)
            (fun i _ => P.conj (Aa (AUi nb lda (st - 1) (st + 1 + (i : ℤ))))))
          (vp1 + 1) 1 ((ed - st + 1).toNat - 1)
          (fun i _ => (t1r1 P CoreblasEnum.Upper nb lda st ed Aa).2.1.getD i 0)
          (vp1 + (i : ℤ)))
      (t1r1 P CoreblasEnum.Upper nb lda st ed Aa).2.2
      (Function.update
        (vecMap Aa (AUi nb lda (st - 1) (st + 1)) (lda - 1)
          ((ed - st + 1).toNat - 1) (fun _ _ => 0))
        (AUi nb lda (st - 1) st) (t1r1 P CoreblasEnum.Upper nb lda st ed Aa).1)
      (AUi nb lda st st) (lda - 1) =
    t1mid P CoreblasEnum.Upper nb lda st ed Aa := by
  rw [t1mid, if_pos rfl]
  refine larfxR_congr (fun k hk => ?_)
  match k with
  | 0 => simpa using writeVec_val_zero
  | (j + 1) =>
      have hc : vp1 + ((j + 1 : ℕ) : ℤ) = vp1 + 1 + (j : ℤ) := by push_cast; ring
      rw [hc, writeVec_val_succ j (by omega)]
      simp

theorem t1r2_upper_eq (P : Prims K) (nb lda st ed : ℤ) (W Aa : ℤ → K)
    (vp1 : ℤ) :
    P.larfg (ed - st + 1).toNat
      (vecMap (t1mid P CoreblasEnum.Upper nb lda st ed Aa)
        (AUi nb lda (st + 1) st) 1 ((ed - st + 1).toNat - 1)
        (fun _ _ => 0) (AUi nb lda st st))
      ((List.range ((ed - st + 1).toNat - 1)).map (fun i =>
        vecMap (Function.update W vp1 1) (vp1 + 1) 1 ((ed - st + 1).toNat - 1)
          (fun i _ => t1mid P CoreblasEnum.Upper nb lda st ed Aa
            (AUi nb lda (st + 1) st + (i : ℤ)))
          (vp1 + 1 + (i : ℤ)))) =
    t1r2 P CoreblasEnum.Upper nb lda st ed Aa := by
  simp only [t1r2]
  rw [if_pos trivial]
  refine congrArg (P.larfg _ _) ?_
  refine List.map_congr_left (fun a ha => ?_)
  obtain ⟨j, hj, rfl⟩ := mem_coe_range ha
  exact copyVec_val j hj

theorem type1Upper_slot_vals (P : Prims K)
    (n nb lda st ed sweep Vblksiz wantz : ℤ) (S : BState K) :
    (type1Upper P n nb lda st ed sweep Vblksiz wantz S).VP
      (vtPos P n nb Vblksiz sweep st wantz).1 = 1 ∧
    (∀ k : ℕ, k < (ed - st + 1).toNat - 1 →
      (type1Upper P n nb lda st ed sweep Vblksiz wantz S).VP
        ((vtPos P n nb Vblksiz sweep st wantz).1 + 1 + (k : ℤ)) =
      (t1r1 P CoreblasEnum.Upper nb lda st ed S.A).2.1.getD k 0) ∧
    (type1Upper P n nb lda st ed sweep Vblksiz wantz S).TAUP
      (vtPos P n nb Vblksiz sweep st wantz).2 =
      (t1r1 P CoreblasEnum.Upper nb lda st ed S.A).2.2 ∧
    (type1Upper P n nb lda st ed sweep Vblksiz wantz S).VQ
      (vtPos P n nb Vblksiz sweep st wantz).1 = 1 ∧
    (∀ k : ℕ, k < (ed - st + 1).toNat - 1 →
      (type1Upper P n nb lda st ed sweep Vblksiz wantz S).VQ
        ((vtPos P n nb Vblksiz sweep st wantz).1 + 1 + (k : ℤ)) =
      (t1r2 P CoreblasEnum.Upper nb lda st ed S.A).2.1.getD k 0) ∧
    (type1Upper P n nb lda st ed sweep Vblksiz wantz S).TAUQ
      (vtPos P n nb Vblksiz sweep st wantz).2 =
      (t1r2 P CoreblasEnum.Upper nb lda st ed S.A).2.2 := by
  refine ⟨?_, ?_, ?_, ?_, ?_, ?_⟩
  · simp only [type1Upper]
    exact writeVec_val_zero
  · intro k hk
    simp only [type1Upper]
    rw [writeVec_val_succ k hk, t1r1_upper_eq]
  · simp only [type1Upper]
    rw [Function.update_same, t1r1_upper_eq]
  · simp only [type1Upper]
    exact writeVec_val_zero
  · intro k hk
    simp only [type1Upper]
    rw [writeVec_val_succ k hk, t1r1_upper_eq, Function.update_same,
      t1A3_upper_eq, t1r2_upper_eq]
  · simp only [type1Upper]
    rw [Function.update_same, Function.update_same, t1r1_upper_eq,
      t1A3_upper_eq, t1r2_upper_eq]


theorem t1r1_notUpper {P : Prims K} {uplo : CoreblasEnum} {nb lda st ed : ℤ}
    {Aa : ℤ → K} (h : uplo ≠ CoreblasEnum.Upper) :
    t1r1 P uplo nb lda st ed Aa = t1r1 P CoreblasEnum.Lower nb lda st ed Aa := by
  simp only [t1r1]
  rw [if_neg h, if_neg (by decide)]

theorem t1mid_notUpper {P : Prims K} {uplo : CoreblasEnum} {nb lda st ed : ℤ}
    {Aa : ℤ → K} (h : uplo ≠ CoreblasEnum.Upper) :
    t1mid P uplo nb lda st ed Aa = t1mid P CoreblasEnum.Lower nb lda st ed Aa := by
  simp only [t1mid]
  rw [if_neg h, if_neg (by decide), t1r1_notUpper h]

theorem t1r2_notUpper {P : Prims K} {uplo : CoreblasEnum} {nb lda st ed : ℤ}
    {Aa : ℤ → K} (h : uplo ≠ CoreblasEnum.Upper) :
    t1r2 P uplo nb lda st ed Aa = t1r2 P CoreblasEnum.Lower nb lda st ed Aa := by
  simp only [t1r2]
  rw [if_neg h, if_neg (by decide), t1mid_notUpper h]

theorem cex_band : ∀ i j : ℤ, offBandPos CoreblasEnum.Lower 6 2 i j →
    ¬ elimLine CoreblasEnum.Lower 0 i j →
    cexS.A (bandOffset CoreblasEnum.Lower 2 7 i j) = 0 := by
  intro i j hOff hNe
  obtain ⟨hi0, hin, hj0, hjn, hb⟩ := hOff
  rw [if_neg (by decide)] at hb
  have hj : j ≠ 0 := by
    intro hc
    exact hNe (by simp only [elimLine]; rw [if_neg (by decide)]; exact hc)
  show cexA (bandOffset CoreblasEnum.Lower 2 7 i j) = 0
  simp only [bandOffset]
  rw [if_neg (by decide)]
  simp only [cexA, ALi]
  rw [if_neg (by omega)]

/-- C1 (amended): under the claim hypotheses the type-1 kernel leaves every
entry outside the band unchanged; the off-band nonzeros after the call are
exactly the pre-existing ones on the elimination line at `st-1` (the claimed
single bulge on the line at `st` is not created by this kernel), and both
reflector pairs are fully written to their ping-pong slots, with values the
`larfg` results described by `t1r1` and `t1r2`. -/
theorem c1_band_invariant_type1 (P : Prims K) (uplo : CoreblasEnum)
    (n nb lda st ed sweep Vblksiz wantz : ℤ) (S : BState K)
    (hst : 1 ≤ st) (hsted : st ≤ ed) (hedn : ed < n)
    (hlen : ed - st + 1 ≤ nb) (hlda : 3 * nb + 1 ≤ lda)
    (hband : ∀ i j : ℤ, offBandPos uplo n nb i j →
      ¬ elimLine uplo (st - 1) i j → S.A (bandOffset uplo nb lda i j) = 0) :
    (∀ i j : ℤ, offBandPos uplo n nb i j → ¬ elimLine uplo (st - 1) i j →
      (coreblas_zgbtype1cb P uplo n nb lda st ed sweep Vblksiz wantz S).A
        (bandOffset uplo nb lda i j) = 0) ∧
    (coreblas_zgbtype1cb P uplo n nb lda st ed sweep Vblksiz wantz S).VQ
      (vtPos P n nb Vblksiz sweep st wantz).1 = 1 ∧
    (∀ k : ℕ, k < (ed - st + 1).toNat - 1 →
      (coreblas_zgbtype1cb P uplo n nb lda st ed sweep Vblksiz wantz S).VQ
        ((vtPos P n nb Vblksiz sweep st wantz).1 + 1 + (k : ℤ)) =
      ((if uplo = CoreblasEnum.Upper then t1r2 P uplo nb lda st ed S.A
        else t1r1 P uplo nb lda st ed S.A)).2.1.getD k 0) ∧
    (coreblas_zgbtype1cb P uplo n nb lda st ed sweep Vblksiz wantz S).TAUQ
      (vtPos P n nb Vblksiz sweep st wantz).2 =
      ((if uplo = CoreblasEnum.Upper then t1r2 P uplo nb lda st ed S.A
        else t1r1 P uplo nb lda st ed S.A)).2.2 ∧
    (coreblas_zgbtype1cb P uplo n nb lda st ed sweep Vblksiz wantz S).VP
      (vtPos P n nb Vblksiz sweep st wantz).1 = 1 ∧
    (∀ k : ℕ, k < (ed - st + 1).toNat - 1 →
      (coreblas_zgbtype1cb P uplo n nb lda st ed sweep Vblksiz wantz S).VP
        ((vtPos P n nb Vblksiz sweep st wantz).1 + 1 + (k : ℤ)) =
      ((if uplo = CoreblasEnum.Upper then t1r1 P uplo nb lda st ed S.A
        else t1r2 P uplo nb lda st ed S.A)).2.1.getD k 0) ∧
    (coreblas_zgbtype1cb P uplo n nb lda st ed sweep Vblksiz wantz S).TAUP
      (vtPos P n nb Vblksiz sweep st wantz).2 =
      ((if uplo = CoreblasEnum.Upper then t1r1 P uplo nb lda st ed S.A
        else t1r2 P uplo nb lda st ed S.A)).2.2 := by
  by_cases hu : uplo = CoreblasEnum.Upper
  · subst hu
    obtain ⟨h1, h2, h3, h4, h5, h6⟩ :=
      type1Upper_slot_vals P n nb lda st ed sweep Vblksiz wantz S
    have hT : CoreblasEnum.Upper = CoreblasEnum.Upper := rfl
    simp only [coreblas_zgbtype1cb, if_pos hT, if_true]
    refine ⟨?_, h4, h5, h6, h1, h2, h3⟩
    intro i j hOff hNe
    have hb : nb < j - i ∧ j - i ≤ 2 * nb := by
      have h' := hOff.2.2.2.2
      rwa [if_pos hT] at h'
    refine (type1Upper_A_frame ?_).trans (hband i j hOff hNe)
    intro c e hc1 hc2 he1 he2
    simp only [bandOffset, if_true]
    intro hEq
    have hx : lda * (j - c) = e - (i - j) := by
      simp only [AUi] at hEq
      linear_combination hEq
    have hmax1 : max (ed - st + 1) 1 = ed - st + 1 := by omega
    rw [hmax1] at he1 he2
    obtain ⟨-, hx0⟩ := mul_bounded_eq_zero (show (0:ℤ) < lda by omega) hx
      (by omega) (by omega)
    omega
  · obtain ⟨h1, h2, h3, h4, h5, h6⟩ :=
      type1Lower_slot_vals P n nb lda st ed sweep Vblksiz wantz S
    simp only [coreblas_zgbtype1cb, if_neg hu, t1r1_notUpper hu,
      t1r2_notUpper hu]
    refine ⟨?_, h1, h2, h3, h4, h5, h6⟩
    intro i j hOff hNe
    have hb : nb < i - j ∧ i - j ≤ 2 * nb := by
      have h' := hOff.2.2.2.2
      rwa [if_neg hu] at h'
    refine (type1Lower_A_frame ?_).trans (hband i j hOff hNe)
    intro c e hc1 hc2 he1 he2
    simp only [bandOffset]
    rw [if_neg hu]
    intro hEq
    have hx : lda * (j - c) = e - (i - j) := by
      simp only [ALi] at hEq
      linear_combination hEq
    have hmax1 : max (ed - st + 1) 1 = ed - st + 1 := by omega
    rw [hmax1] at he1 he2
    obtain ⟨-, hx0⟩ := mul_bounded_eq_zero (show (0:ℤ) < lda by omega) hx
      (by omega) (by omega)
    omega

/-- Closed witness for the amended C1 theorem: a concrete lower call
(`n = 6`, `nb = 2`, `lda = 7`, `st = 1`, `ed = 2`, sweep 0, values-only)
satisfying every hypothesis; the head of `VQ` is written and the off-band
position `(5, 1)` is zero after the call. -/
theorem c1_witness :
    (coreblas_zgbtype1cb rprims CoreblasEnum.Lower 6 2 7 1 2 0 0 0 cexS).VQ
      (vtPos rprims 6 2 0 0 1 0).1 = 1 ∧
    (coreblas_zgbtype1cb rprims CoreblasEnum.Lower 6 2 7 1 2 0 0 0 cexS).A
      (bandOffset CoreblasEnum.Lower 2 7 5 1) = 0 := by
  have h := c1_band_invariant_type1 rprims CoreblasEnum.Lower 6 2 7 1 2 0 0 0
    cexS (by norm_num) (by norm_num) (by norm_num) (by norm_num) (by norm_num)
    (by
      intro i j hOff hNe
      refine cex_band i j hOff ?_
      rwa [show (1 : ℤ) - 1 = 0 from by norm_num] at hNe)
  refine ⟨h.2.1, h.1 5 1 ?_ ?_⟩
  · refine ⟨by norm_num, by norm_num, by norm_num, by norm_num, ?_⟩
    rw [if_neg (by decide)]
    constructor <;> norm_num
  · intro hc
    simp only [elimLine] at hc
    rw [if_neg (by decide)] at hc
    exact absurd hc (by norm_num)

theorem c1_as_stated_counterexample : ¬ C1_claim := by
  intro h
  have h2 := h rprims CoreblasEnum.Lower 6 2 7 1 2 0 0 0 cexS
    (by norm_num) (by norm_num) (by norm_num) (by norm_num) (by norm_num)
    (by
      intro i j hOff hNe
      refine cex_band i j hOff ?_
      rwa [show (1 : ℤ) - 1 = 0 from by norm_num] at hNe)
  have hOff45 : offBandPos CoreblasEnum.Lower 6 2 4 0 := by
    refine ⟨by norm_num, by norm_num, by norm_num, by norm_num, ?_⟩
    rw [if_neg (by decide)]
    constructor <;> norm_num
  have hNe45 : ¬ elimLine CoreblasEnum.Lower 1 4 0 := by
    simp only [elimLine]
    rw [if_neg (by decide)]
    norm_num
  have hval := h2 4 0 hOff45 hNe45
  rw [show bandOffset CoreblasEnum.Lower 2 7 4 0 = 6 from by
    simp only [bandOffset]; rw [if_neg (by decide)]; norm_num [ALi]] at hval
  have hframe : (coreblas_zgbtype1cb rprims CoreblasEnum.Lower 6 2 7 1 2 0 0 0
      cexS).A 6 = cexS.A 6 := by
    simp only [coreblas_zgbtype1cb]
    rw [if_neg (by decide)]
    refine type1Lower_A_frame ?_
    intro c e hc1 hc2 he1 he2
    simp only [ALi]
    omega
  rw [hframe] at hval
  have hone : (1 : ℚ) = 0 := by
    calc (1 : ℚ) = cexS.A 6 := by norm_num [cexS, cexA]
    _ = 0 := hval
  exact one_ne_zero hone



theorem type1_TAU_frame_all {P : Prims K} {uplo : CoreblasEnum}
    {n nb lda st ed sweep Vblksiz wantz : ℤ} {S : BState K} {i : ℤ}
    (h : i ≠ (vtPos P n nb Vblksiz sweep st wantz).2) :
    (coreblas_zgbtype1cb P uplo n nb lda st ed sweep Vblksiz wantz S).TAUQ i =
      S.TAUQ i ∧
    (coreblas_zgbtype1cb P uplo n nb lda st ed sweep Vblksiz wantz S).TAUP i =
      S.TAUP i := by
  by_cases hu : uplo = CoreblasEnum.Upper
  · simp only [coreblas_zgbtype1cb, if_pos hu]
    exact type1Upper_TAU_frame h
  · simp only [coreblas_zgbtype1cb, if_neg hu]
    exact type1Lower_TAU_frame h

theorem type1_V_frame_all {P : Prims K} {uplo : CoreblasEnum}
    {n nb lda st ed sweep Vblksiz wantz : ℤ} {S : BState K} {i : ℤ}
    (h : i < (vtPos P n nb Vblksiz sweep st wantz).1 ∨
      (vtPos P n nb Vblksiz sweep st wantz).1 + max (ed - st + 1) 1 ≤ i) :
    (coreblas_zgbtype1cb P uplo n nb lda st ed sweep Vblksiz wantz S).VQ i =
      S.VQ i ∧
    (coreblas_zgbtype1cb P uplo n nb lda st ed sweep Vblksiz wantz S).VP i =
      S.VP i := by
  by_cases hu : uplo = CoreblasEnum.Upper
  · simp only [coreblas_zgbtype1cb, if_pos hu]
    exact type1Upper_V_frame h
  · simp only [coreblas_zgbtype1cb, if_neg hu]
    exact type1Lower_V_frame h

theorem type2_TAU_frame_all {P : Prims K} {uplo : CoreblasEnum}
    {n nb lda st ed sweep Vblksiz wantz : ℤ} {S : BState K} {i : ℤ}
    (h : i ≠ (vtPos P n nb Vblksiz sweep (ed + 1) wantz).2) :
    (coreblas_zgbtype2cb P uplo n nb lda st ed sweep Vblksiz wantz S).TAUQ i =
      S.TAUQ i ∧
    (coreblas_zgbtype2cb P uplo n nb lda st ed sweep Vblksiz wantz S).TAUP i =
      S.TAUP i := by
  by_cases hu : uplo = CoreblasEnum.Upper
  · simp only [coreblas_zgbtype2cb, if_pos hu]
    by_cases h2 : 1 < min (ed + nb) (n - 1) - (ed + 1) + 1
    · rw [if_pos h2]
      refine ⟨(type2UpperP2_TAU_frame h).1.trans ?_,
        (type2UpperP2_TAU_frame h).2.trans ?_⟩ <;>
        by_cases h1 : 0 < min (ed + nb) (n - 1) - (ed + 1) + 1
      · rw [if_pos h1]; exact congrFun type2UpperP1_stores.2.1 i
      · rw [if_neg h1]
      · rw [if_pos h1]; exact congrFun type2UpperP1_stores.2.2.2 i
      · rw [if_neg h1]
    · rw [if_neg h2]
      by_cases h1 : 0 < min (ed + nb) (n - 1) - (ed + 1) + 1
      · rw [if_pos h1]
        exact ⟨congrFun type2UpperP1_stores.2.1 i,
          congrFun type2UpperP1_stores.2.2.2 i⟩
      · rw [if_neg h1]; exact ⟨rfl, rfl⟩
  · simp only [coreblas_zgbtype2cb, if_neg hu]
    by_cases h2 : 1 < min (ed + nb) (n - 1) - (ed + 1) + 1
    · rw [if_pos h2]
      refine ⟨(type2LowerP2_TAU_frame h).1.trans ?_,
        (type2LowerP2_TAU_frame h).2.trans ?_⟩ <;>
        by_cases h1 : 0 < min (ed + nb) (n - 1) - (ed + 1) + 1
      · rw [if_pos h1]; exact congrFun type2LowerP1_stores.2.1 i
      · rw [if_neg h1]
      · rw [if_pos h1]; exact congrFun type2LowerP1_stores.2.2.2 i
      · rw [if_neg h1]
    · rw [if_neg h2]
      by_cases h1 : 0 < min (ed + nb) (n - 1) - (ed + 1) + 1
      · rw [if_pos h1]
        exact ⟨congrFun type2LowerP1_stores.2.1 i,
          congrFun type2LowerP1_stores.2.2.2 i⟩
      · rw [if_neg h1]; exact ⟨rfl, rfl⟩

theorem type2_V_frame_all {P : Prims K} {uplo : CoreblasEnum}
    {n nb lda st ed sweep Vblksiz wantz : ℤ} {S : BState K} {i : ℤ}
    (h : i < (vtPos P n nb Vblksiz sweep (ed + 1) wantz).1 ∨
      (vtPos P n nb Vblksiz sweep (ed + 1) wantz).1 +
        max (min (ed + nb) (n - 1) - ed) 1 ≤ i) :
    (coreblas_zgbtype2cb P uplo n nb lda st ed sweep Vblksiz wantz S).VQ i =
      S.VQ i ∧
    (coreblas_zgbtype2cb P uplo n nb lda st ed sweep Vblksiz wantz S).VP i =
      S.VP i := by
  by_cases hu : uplo = CoreblasEnum.Upper
  · simp only [coreblas_zgbtype2cb, if_pos hu]
    by_cases h2 : 1 < min (ed + nb) (n - 1) - (ed + 1) + 1
    · rw [if_pos h2]
      refine ⟨(type2UpperP2_V_frame h).1.trans ?_,
        (type2UpperP2_V_frame h).2.trans ?_⟩ <;>
        by_cases h1 : 0 < min (ed + nb) (n - 1) - (ed + 1) + 1
      · rw [if_pos h1]; exact congrFun type2UpperP1_stores.1 i
      · rw [if_neg h1]
      · rw [if_pos h1]; exact congrFun type2UpperP1_stores.2.2.1 i
      · rw [if_neg h1]
    · rw [if_neg h2]
      by_cases h1 : 0 < min (ed + nb) (n - 1) - (ed + 1) + 1
      · rw [if_pos h1]
        exact ⟨congrFun type2UpperP1_stores.1 i,
          congrFun type2UpperP1_stores.2.2.1 i⟩
      · rw [if_neg h1]; exact ⟨rfl, rfl⟩
  · simp only [coreblas_zgbtype2cb, if_neg hu]
    by_cases h2 : 1 < min (ed + nb) (n - 1) - (ed + 1) + 1
    · rw [if_pos h2]
      refine ⟨(type2LowerP2_V_frame h).1.trans ?_,
        (type2LowerP2_V_frame h).2.trans ?_⟩ <;>
        by_cases h1 : 0 < min (ed + nb) (n - 1) - (ed + 1) + 1
      · rw [if_pos h1]; exact congrFun type2LowerP1_stores.1 i
      · rw [if_neg h1]
      · rw [if_pos h1]; exact congrFun type2LowerP1_stores.2.2.1 i
      · rw [if_neg h1]
    · rw [if_neg h2]
      by_cases h1 : 0 < min (ed + nb) (n - 1) - (ed + 1) + 1
      · rw [if_pos h1]
        exact ⟨congrFun type2LowerP1_stores.1 i,
          congrFun type2LowerP1_stores.2.2.1 i⟩
      · rw [if_neg h1]; exact ⟨rfl, rfl⟩

/-- C2: in values-only mode (`wantz = 0`) the reflector-vector offset and the
scalar offset both equal `((sweep+1) mod 2)*n + p` — with `p = st` for the
type-1 call's own reflector and `p = J1 = ed+1` for the reflector a type-2
call generates — and the kernels touch the reflector stores only at those
ping-pong slots: type-1 writes `TAUQ`/`TAUP` only at the slot for `st` and
`VQ`/`VP` only inside `[slot, slot+len)`; type-2 writes them only at the slot
for `ed+1`. -/
theorem c2_pingpong_storage (P : Prims K) (uplo : CoreblasEnum)
    (n nb lda st ed sweep Vblksiz : ℤ) (S : BState K) :
    vtPos P n nb Vblksiz sweep st 0 =
      (((sweep + 1) % 2) * n + st, ((sweep + 1) % 2) * n + st) ∧
    vtPos P n nb Vblksiz sweep (ed + 1) 0 =
      (((sweep + 1) % 2) * n + (ed + 1), ((sweep + 1) % 2) * n + (ed + 1)) ∧
    (∀ i : ℤ, i ≠ ((sweep + 1) % 2) * n + st →
      (coreblas_zgbtype1cb P uplo n nb lda st ed sweep Vblksiz 0 S).TAUQ i =
        S.TAUQ i ∧
      (coreblas_zgbtype1cb P uplo n nb lda st ed sweep Vblksiz 0 S).TAUP i =
        S.TAUP i) ∧
    (∀ i : ℤ, (i < ((sweep + 1) % 2) * n + st ∨
        ((sweep + 1) % 2) * n + st + max (ed - st + 1) 1 ≤ i) →
      (coreblas_zgbtype1cb P uplo n nb lda st ed sweep Vblksiz 0 S).VQ i =
        S.VQ i ∧
      (coreblas_zgbtype1cb P uplo n nb lda st ed sweep Vblksiz 0 S).VP i =
        S.VP i) ∧
    (∀ i : ℤ, i ≠ ((sweep + 1) % 2) * n + (ed + 1) →
      (coreblas_zgbtype2cb P uplo n nb lda st ed sweep Vblksiz 0 S).TAUQ i =
        S.TAUQ i ∧
      (coreblas_zgbtype2cb P uplo n nb lda st ed sweep Vblksiz 0 S).TAUP i =
        S.TAUP i) ∧
    (∀ i : ℤ, (i < ((sweep + 1) % 2) * n + (ed + 1) ∨
        ((sweep + 1) % 2) * n + (ed + 1) +
          max (min (ed + nb) (n - 1) - ed) 1 ≤ i) →
      (coreblas_zgbtype2cb P uplo n nb lda st ed sweep Vblksiz 0 S).VQ i =
        S.VQ i ∧
      (coreblas_zgbtype2cb P uplo n nb lda st ed sweep Vblksiz 0 S).VP i =
        S.VP i) := by
  have hv1 : vtPos P n nb Vblksiz sweep st 0 =
      (((sweep + 1) % 2) * n + st, ((sweep + 1) % 2) * n + st) := by
    simp [vtPos]
  have hv2 : vtPos P n nb Vblksiz sweep (ed + 1) 0 =
      (((sweep + 1) % 2) * n + (ed + 1), ((sweep + 1) % 2) * n + (ed + 1)) := by
    simp [vtPos]
  refine ⟨hv1, hv2, ?_, ?_, ?_, ?_⟩
  · intro i hi
    exact type1_TAU_frame_all (by rw [hv1]; exact hi)
  · intro i hi
    exact type1_V_frame_all (by rw [hv1]; exact hi)
  · intro i hi
    exact type2_TAU_frame_all (by rw [hv2]; exact hi)
  · intro i hi
    exact type2_V_frame_all (by rw [hv2]; exact hi)

/-- Closed witness for C2: the slot formula and a store-frame instance on the
concrete lower call of the §8 scenario. -/
theorem c2_witness :
    (0 : ℤ) ≠ ((0 + 1) % 2) * 4 + 1 ∧
    ((coreblas_zgbtype1cb rprims CoreblasEnum.Lower 4 2 7 1 2 0 0 0 exS).TAUQ 0
        = exS.TAUQ 0 ∧
      (coreblas_zgbtype1cb rprims CoreblasEnum.Lower 4 2 7 1 2 0 0 0 exS).TAUP 0
        = exS.TAUP 0) :=
  ⟨by norm_num,
   (c2_pingpong_storage rprims CoreblasEnum.Lower 4 2 7 1 2 0 0 exS).2.2.1 0
     (by norm_num)⟩

set_option maxHeartbeats 1000000 in
/-- C8: the validating BLAS-wrapper kernels `coreblas_ztsmqr`,
`coreblas_ztradd` and `coreblas_zpemv` return, on any invalid input, a
negative code `-i` where `i` is the position of an offending parameter in
the C argument list, and do so before modifying any output buffer: the
returned state equals the input state. -/
theorem c8_wrappers_return_neg_position :
    (∀ (parfb : CoreblasEnum → CoreblasEnum → ℤ → ℤ → ℤ → ℤ → ℤ → ℤ → ℤ → ℤ →
        TSState K → TSState K)
      (side trans : CoreblasEnum) (m1 n1 m2 n2 k ib : ℤ)
      (a1null : Bool) (lda1 : ℤ) (a2null : Bool) (lda2 : ℤ) (vnull : Bool)
      (ldv : ℤ) (tnull : Bool) (ldt : ℤ) (worknull : Bool) (ldwork : ℤ)
      (S : TSState K) (i : ℤ),
      ztsmqrParamInvalid side trans m1 n1 m2 n2 k ib a1null lda1 a2null lda2
        vnull ldv tnull ldt worknull ldwork i →
      (coreblas_ztsmqr parfb side trans m1 n1 m2 n2 k ib a1null lda1 a2null
        lda2 vnull ldv tnull ldt worknull ldwork S).1 < 0 ∧
      (coreblas_ztsmqr parfb side trans m1 n1 m2 n2 k ib a1null lda1 a2null
        lda2 vnull ldv tnull ldt worknull ldwork S).2 = S ∧
      ztsmqrParamInvalid side trans m1 n1 m2 n2 k ib a1null lda1 a2null lda2
        vnull ldv tnull ldt worknull ldwork
        (-(coreblas_ztsmqr parfb side trans m1 n1 m2 n2 k ib a1null lda1
          a2null lda2 vnull ldv tnull ldt worknull ldwork S).1)) ∧
    (∀ (conjK : K → K) (uplo transa : CoreblasEnum) (m n : ℤ) (alpha : K)
      (anull : Bool) (A : ℤ → K) (lda : ℤ) (beta : K) (bnull : Bool)
      (B : ℤ → K) (ldb : ℤ) (i : ℤ),
      ztraddParamInvalid uplo transa m n anull lda bnull ldb i →
      (coreblas_ztradd conjK uplo transa m n alpha anull A lda beta bnull B
        ldb).1 < 0 ∧
      (coreblas_ztradd conjK uplo transa m n alpha anull A lda beta bnull B
        ldb).2 = B ∧
      ztraddParamInvalid uplo transa m n anull lda bnull ldb
        (-(coreblas_ztradd conjK uplo transa m n alpha anull A lda beta bnull
          B ldb).1)) ∧
    (∀ (conjK : K → K) (trans storev : CoreblasEnum) (m n l : ℤ) (alpha : K)
      (A : ℤ → K) (lda : ℤ) (X : ℤ → K) (incx : ℤ) (beta : K) (incy : ℤ)
      (S : PState K) (i : ℤ),
      zpemvParamInvalid trans storev m n l lda incx incy i →
      (coreblas_zpemv conjK trans storev m n l alpha A lda X incx beta incy
        S).1 < 0 ∧
      (coreblas_zpemv conjK trans storev m n l alpha A lda X incx beta incy
        S).2 = S ∧
      zpemvParamInvalid trans storev m n l lda incx incy
        (-(coreblas_zpemv conjK trans storev m n l alpha A lda X incx beta
          incy S).1)) := by
  refine ⟨?_, ?_, ?_⟩
  · intro parfb side trans m1 n1 m2 n2 k ib a1null lda1 a2null lda2 vnull ldv
      tnull ldt worknull ldwork S i hi
    simp only [coreblas_ztsmqr]
    by_cases h1 : ¬(side = CoreblasEnum.Left ∨ side = CoreblasEnum.Right)
    · rw [if_pos h1]
      exact ⟨by norm_num, rfl, Or.inl ⟨by norm_num, h1⟩⟩
    · rw [if_neg h1]
      by_cases h2 : ¬(trans = CoreblasEnum.NoTrans ∨ trans = CoreblasEnum.ConjTrans)
      · rw [if_pos h2]
        exact ⟨by norm_num, rfl, Or.inr (Or.inl ⟨by norm_num, h2⟩)⟩
      · rw [if_neg h2]
        by_cases h3 : m1 < 0
        · rw [if_pos h3]
          exact ⟨by norm_num, rfl, Or.inr (Or.inr (Or.inl ⟨by norm_num, h3⟩))⟩
        · rw [if_neg h3]
          by_cases h4 : n1 < 0
          · rw [if_pos h4]
            exact ⟨by norm_num, rfl, Or.inr (Or.inr (Or.inr (Or.inl ⟨by norm_num, h4⟩)))⟩
          · rw [if_neg h4]
            by_cases h5 : m2 < 0 ∨ (m2 ≠ m1 ∧ side = CoreblasEnum.Right)
            · rw [if_pos h5]
              exact ⟨by norm_num, rfl, Or.inr (Or.inr (Or.inr (Or.inr (Or.inl ⟨by norm_num, h5⟩))))⟩
            · rw [if_neg h5]
              by_cases h6 : n2 < 0 ∨ (n2 ≠ n1 ∧ side = CoreblasEnum.Left)
              · rw [if_pos h6]
                exact ⟨by norm_num, rfl, Or.inr (Or.inr (Or.inr (Or.inr (Or.inr (Or.inl ⟨by norm_num, h6⟩)))))⟩
              · rw [if_neg h6]
                by_cases h7 : k < 0 ∨ (side = CoreblasEnum.Left ∧ k > m1) ∨ (side = CoreblasEnum.Right ∧ k > n1)
                · rw [if_pos h7]
                  exact ⟨by norm_num, rfl, Or.inr (Or.inr (Or.inr (Or.inr (Or.inr (Or.inr (Or.inl ⟨by norm_num, h7⟩))))))⟩
                · rw [if_neg h7]
                  by_cases h8 : ib < 0
                  · rw [if_pos h8]
                    exact ⟨by norm_num, rfl, Or.inr (Or.inr (Or.inr (Or.inr (Or.inr (Or.inr (Or.inr (Or.inl ⟨by norm_num, h8⟩)))))))⟩
                  · rw [if_neg h8]
                    by_cases h9 : a1null = true
                    · rw [if_pos h9]
                      exact ⟨by norm_num, rfl, Or.inr (Or.inr (Or.inr (Or.inr (Or.inr (Or.inr (Or.inr (Or.inr (Or.inl ⟨by norm_num, h9⟩))))))))⟩
                    · rw [if_neg h9]
                      by_cases h10 : lda1 < max 1 m1
                      · rw [if_pos h10]
                        exact ⟨by norm_num, rfl, Or.inr (Or.inr (Or.inr (Or.inr (Or.inr (Or.inr (Or.inr (Or.inr (Or.inr (Or.inl ⟨by norm_num, h10⟩)))))))))⟩
                      · rw [if_neg h10]
                        by_cases h11 : a2null = true
                        · rw [if_pos h11]
                          exact ⟨by norm_num, rfl, Or.inr (Or.inr (Or.inr (Or.inr (Or.inr (Or.inr (Or.inr (Or.inr (Or.inr (Or.inr (Or.inl ⟨by norm_num, h11⟩))))))))))⟩
                        · rw [if_neg h11]
                          by_cases h12 : lda2 < max 1 m2
                          · rw [if_pos h12]
                            exact ⟨by norm_num, rfl, Or.inr (Or.inr (Or.inr (Or.inr (Or.inr (Or.inr (Or.inr (Or.inr (Or.inr (Or.inr (Or.inr (Or.inl ⟨by norm_num, h12⟩)))))))))))⟩
                          · rw [if_neg h12]
                            by_cases h13 : vnull = true
                            · rw [if_pos h13]
                              exact ⟨by norm_num, rfl, Or.inr (Or.inr (Or.inr (Or.inr (Or.inr (Or.inr (Or.inr (Or.inr (Or.inr (Or.inr (Or.inr (Or.inr (Or.inl ⟨by norm_num, h13⟩))))))))))))⟩
                            · rw [if_neg h13]
                              by_cases h14 : ldv < max 1 (if side = CoreblasEnum.Left then m2 else n2)
                              · rw [if_pos h14]
                                exact ⟨by norm_num, rfl, Or.inr (Or.inr (Or.inr (Or.inr (Or.inr (Or.inr (Or.inr (Or.inr (Or.inr (Or.inr (Or.inr (Or.inr (Or.inr (Or.inl ⟨by norm_num, h14⟩)))))))))))))⟩
                              · rw [if_neg h14]
                                by_cases h15 : tnull = true
                                · rw [if_pos h15]
                                  exact ⟨by norm_num, rfl, Or.inr (Or.inr (Or.inr (Or.inr (Or.inr (Or.inr (Or.inr (Or.inr (Or.inr (Or.inr (Or.inr (Or.inr (Or.inr (Or.inr (Or.inl ⟨by norm_num, h15⟩))))))))))))))⟩
                                · rw [if_neg h15]
                                  by_cases h16 : ldt < max 1 ib
                                  · rw [if_pos h16]
                                    exact ⟨by norm_num, rfl, Or.inr (Or.inr (Or.inr (Or.inr (Or.inr (Or.inr (Or.inr (Or.inr (Or.inr (Or.inr (Or.inr (Or.inr (Or.inr (Or.inr (Or.inr (Or.inl ⟨by norm_num, h16⟩)))))))))))))))⟩
                                  · rw [if_neg h16]
                                    by_cases h17 : worknull = true
                                    · rw [if_pos h17]
                                      exact ⟨by norm_num, rfl, Or.inr (Or.inr (Or.inr (Or.inr (Or.inr (Or.inr (Or.inr (Or.inr (Or.inr (Or.inr (Or.inr (Or.inr (Or.inr (Or.inr (Or.inr (Or.inr (Or.inl ⟨by norm_num, h17⟩))))))))))))))))⟩
                                    · rw [if_neg h17]
                                      by_cases h18 : ldwork < max 1 (if side = CoreblasEnum.Left then ib else m1)
                                      · rw [if_pos h18]
                                        exact ⟨by norm_num, rfl, Or.inr (Or.inr (Or.inr (Or.inr (Or.inr (Or.inr (Or.inr (Or.inr (Or.inr (Or.inr (Or.inr (Or.inr (Or.inr (Or.inr (Or.inr (Or.inr (Or.inr (⟨by norm_num, h18⟩)))))))))))))))))⟩
                                      · rw [if_neg h18]
                                        exfalso
                                        simp only [ztsmqrParamInvalid] at hi
                                        rcases hi with ⟨-, hc⟩|⟨-, hc⟩|⟨-, hc⟩|⟨-, hc⟩|⟨-, hc⟩|⟨-, hc⟩|⟨-, hc⟩|⟨-, hc⟩|⟨-, hc⟩|⟨-, hc⟩|⟨-, hc⟩|⟨-, hc⟩|⟨-, hc⟩|⟨-, hc⟩|⟨-, hc⟩|⟨-, hc⟩|⟨-, hc⟩|⟨-, hc⟩
                                        all_goals first | exact h1 hc | exact h2 hc | exact h3 hc | exact h4 hc | exact h5 hc | exact h6 hc | exact h7 hc | exact h8 hc | exact h9 hc | exact h10 hc | exact h11 hc | exact h12 hc | exact h13 hc | exact h14 hc | exact h15 hc | exact h16 hc | exact h17 hc | exact h18 hc
  · intro conjK uplo transa m n alpha anull A lda beta bnull B ldb i hi
    simp only [coreblas_ztradd]
    by_cases h1 : ¬(uplo = CoreblasEnum.Upper ∨ uplo = CoreblasEnum.Lower)
    · rw [if_pos h1]
      exact ⟨by norm_num, rfl, Or.inl ⟨by norm_num, h1⟩⟩
    · rw [if_neg h1]
      by_cases h2 : ¬(transa = CoreblasEnum.NoTrans ∨ transa = CoreblasEnum.Trans ∨ transa = CoreblasEnum.ConjTrans)
      · rw [if_pos h2]
        exact ⟨by norm_num, rfl, Or.inr (Or.inl ⟨by norm_num, h2⟩)⟩
      · rw [if_neg h2]
        by_cases h3 : m < 0
        · rw [if_pos h3]
          exact ⟨by norm_num, rfl, Or.inr (Or.inr (Or.inl ⟨by norm_num, h3⟩))⟩
        · rw [if_neg h3]
          by_cases h4 : n < 0
          · rw [if_pos h4]
            exact ⟨by norm_num, rfl, Or.inr (Or.inr (Or.inr (Or.inl ⟨by norm_num, h4⟩)))⟩
          · rw [if_neg h4]
            by_cases h5 : anull = true
            · rw [if_pos h5]
              exact ⟨by norm_num, rfl, Or.inr (Or.inr (Or.inr (Or.inr (Or.inl ⟨by norm_num, h5⟩))))⟩
            · rw [if_neg h5]
              by_cases h6 : (transa = CoreblasEnum.NoTrans ∧ lda < max 1 m ∧ 0 < m) ∨ (transa ≠ CoreblasEnum.NoTrans ∧ lda < max 1 n ∧ 0 < n)
              · rw [if_pos h6]
                exact ⟨by norm_num, rfl, Or.inr (Or.inr (Or.inr (Or.inr (Or.inr (Or.inl ⟨by norm_num, h6⟩)))))⟩
              · rw [if_neg h6]
                by_cases h7 : bnull = true
                · rw [if_pos h7]
                  exact ⟨by norm_num, rfl, Or.inr (Or.inr (Or.inr (Or.inr (Or.inr (Or.inr (Or.inl ⟨by norm_num, h7⟩))))))⟩
                · rw [if_neg h7]
                  by_cases h8 : ldb < max 1 m ∧ 0 < m
                  · rw [if_pos h8]
                    exact ⟨by norm_num, rfl, Or.inr (Or.inr (Or.inr (Or.inr (Or.inr (Or.inr (Or.inr (⟨by norm_num, h8⟩)))))))⟩
                  · rw [if_neg h8]
                    exfalso
                    simp only [ztraddParamInvalid] at hi
                    rcases hi with ⟨-, hc⟩|⟨-, hc⟩|⟨-, hc⟩|⟨-, hc⟩|⟨-, hc⟩|⟨-, hc⟩|⟨-, hc⟩|⟨-, hc⟩
                    all_goals first | exact h1 hc | exact h2 hc | exact h3 hc | exact h4 hc | exact h5 hc | exact h6 hc | exact h7 hc | exact h8 hc
  · intro conjK trans storev m n l alpha A lda X incx beta incy S i hi
    simp only [coreblas_zpemv]
    by_cases h1 : ¬(trans = CoreblasEnum.NoTrans ∨ trans = CoreblasEnum.Trans ∨ trans = CoreblasEnum.ConjTrans)
    · rw [if_pos h1]
      exact ⟨by norm_num, rfl, Or.inl ⟨by norm_num, h1⟩⟩
    · rw [if_neg h1]
      by_cases h2 : ¬(storev = CoreblasEnum.Columnwise ∨ storev = CoreblasEnum.Rowwise)
      · rw [if_pos h2]
        exact ⟨by norm_num, rfl, Or.inr (Or.inl ⟨by norm_num, Or.inl h2⟩)⟩
      · rw [if_neg h2]
        by_cases h3 : ¬((storev = CoreblasEnum.Columnwise ∧ trans ≠ CoreblasEnum.NoTrans) ∨ (storev = CoreblasEnum.Rowwise ∧ trans = CoreblasEnum.NoTrans))
        · rw [if_pos h3]
          exact ⟨by norm_num, rfl, Or.inr (Or.inl ⟨by norm_num, Or.inr h3⟩)⟩
        · rw [if_neg h3]
          by_cases h4 : m < 0
          · rw [if_pos h4]
            exact ⟨by norm_num, rfl, Or.inr (Or.inr (Or.inl ⟨by norm_num, h4⟩))⟩
          · rw [if_neg h4]
            by_cases h5 : n < 0
            · rw [if_pos h5]
              exact ⟨by norm_num, rfl, Or.inr (Or.inr (Or.inr (Or.inl ⟨by norm_num, h5⟩)))⟩
            · rw [if_neg h5]
              by_cases h6 : l > min m n
              · rw [if_pos h6]
                exact ⟨by norm_num, rfl, Or.inr (Or.inr (Or.inr (Or.inr (Or.inl ⟨by norm_num, h6⟩))))⟩
              · rw [if_neg h6]
                by_cases h7 : lda < max 1 m
                · rw [if_pos h7]
                  exact ⟨by norm_num, rfl, Or.inr (Or.inr (Or.inr (Or.inr (Or.inr (Or.inl ⟨by norm_num, h7⟩)))))⟩
                · rw [if_neg h7]
                  by_cases h8 : incx < 1
                  · rw [if_pos h8]
                    exact ⟨by norm_num, rfl, Or.inr (Or.inr (Or.inr (Or.inr (Or.inr (Or.inr (Or.inl ⟨by norm_num, h8⟩))))))⟩
                  · rw [if_neg h8]
                    by_cases h9 : incy < 1
                    · rw [if_pos h9]
                      exact ⟨by norm_num, rfl, Or.inr (Or.inr (Or.inr (Or.inr (Or.inr (Or.inr (Or.inr (⟨by norm_num, h9⟩)))))))⟩
                    · rw [if_neg h9]
                      exfalso
                      simp only [zpemvParamInvalid] at hi
                      rcases hi with ⟨-, hc⟩|⟨-, hc⟩|⟨-, hc⟩|⟨-, hc⟩|⟨-, hc⟩|⟨-, hc⟩|⟨-, hc⟩|⟨-, hc⟩
                      all_goals first | exact h1 hc | exact hc.elim h2 h3 | exact h4 hc | exact h5 hc | exact h6 hc | exact h7 hc | exact h8 hc | exact h9 hc

/-- Closed witness for C8: `coreblas_ztsmqr` called with `m1 = -1` (an
invalid third parameter, everything else legal) returns a negative code that
names an offending position and leaves the state untouched. -/
theorem c8_witness :
    ztsmqrParamInvalid CoreblasEnum.Left CoreblasEnum.NoTrans (-1) 0 0 0 0 0
      false 1 false 1 false 1 false 1 false 1 3 ∧
    ((coreblas_ztsmqr (fun _ _ _ _ _ _ _ _ _ _ (T : TSState ℚ) => T)
        CoreblasEnum.Left CoreblasEnum.NoTrans (-1) 0 0 0 0 0 false 1 false 1
        false 1 false 1 false 1 zeroTS).1 < 0 ∧
      (coreblas_ztsmqr (fun _ _ _ _ _ _ _ _ _ _ (T : TSState ℚ) => T)
        CoreblasEnum.Left CoreblasEnum.NoTrans (-1) 0 0 0 0 0 false 1 false 1
        false 1 false 1 false 1 zeroTS).2 = zeroTS ∧
      ztsmqrParamInvalid CoreblasEnum.Left CoreblasEnum.NoTrans (-1) 0 0 0 0 0
        false 1 false 1 false 1 false 1 false 1
        (-(coreblas_ztsmqr (fun _ _ _ _ _ _ _ _ _ _ (T : TSState ℚ) => T)
          CoreblasEnum.Left CoreblasEnum.NoTrans (-1) 0 0 0 0 0 false 1 false
          1 false 1 false 1 false 1 zeroTS).1)) := by
  have hinv : ztsmqrParamInvalid CoreblasEnum.Left CoreblasEnum.NoTrans (-1) 0
      0 0 0 0 false 1 false 1 false 1 false 1 false 1 3 := by
    simp only [ztsmqrParamInvalid]
    norm_num
  exact ⟨hinv, c8_wrappers_return_neg_position.1
    (fun _ _ _ _ _ _ _ _ _ _ (T : TSState ℚ) => T) CoreblasEnum.Left
    CoreblasEnum.NoTrans (-1) 0 0 0 0 0 false 1 false 1 false 1 false 1 false
    1 zeroTS 3 hinv⟩

end CoreBlas
